import Mathlib

/-!
Structural tree query engine of `scripts/write-api-docs.js`.

A shallow embedding of the tree matcher (`match`), the tree search (`find`),
the extraction steps `findExportedFunction` and `findReturnedData` (with
`assertType` and `fail`) and the output loop `generateOutput` of
`scripts/write-api-docs.js`, together with the properties proved about them.
The bounce gate of `lib/senders/index.js` follows in the namespace `Senders`.

JavaScript values that can occur in a parsed syntax tree are embedded as the
inductive type `Node`.  Numbers are embedded as integers (line numbers, column
numbers, offsets and integer literals); `NaN` does not occur in a parsed tree.
-/

namespace ApiDocs

/-! ## Data model -/

/-- A JavaScript value occurring in a syntax tree: a primitive, a sequence
(`Array`) or a record (plain object).  The fields of a record are listed in
`Object.keys` order; a record has pairwise distinct keys. -/
inductive Node where
  | undefined
  | null
  | bool (b : Bool)
  | num (n : Int)
  | str (s : String)
  | arr (elems : List Node)
  | obj (fields : List (String × Node))
  deriving Repr

namespace Node

/-- `Array.isArray(node)`. -/
def isArray : Node → Bool
  | arr _ => true
  | _ => false

/-- The function `isObject` of the script: `node && typeof node === 'object'`.
It holds for sequences as well as for records (`typeof [] === 'object'`), and
fails for `null` (falsy) and for every other primitive. -/
def isObject : Node → Bool
  | arr _ => true
  | obj _ => true
  | _ => false

/-- A record in the sense of the specification: an object that is not a sequence. -/
def isRecord (node : Node) : Bool :=
  isObject node && ! isArray node

/-- The values `node[key]` for `key` in `Object.keys(node)`, in that order: the
elements of a sequence (its keys are its indices), the field values of a
record.  A primitive is never enumerated by the script. -/
def values : Node → List Node
  | arr elems => elems
  | obj fields => fields.map Prod.snd
  | _ => []

/-- The comparison `a === b` where one of the two operands is not an object (in
`match` the left operand is a primitive, in `findReturnedData` the right operand
is a string): two primitives are strictly equal when they have the same type
and the same value, and a primitive is never strictly equal to an object. -/
def strictEq : Node → Node → Bool
  | undefined, undefined => true
  | null, null => true
  | bool a, bool b => a == b
  | num a, num b => a == b
  | str a, str b => a == b
  | _, _ => false

/-- Truthiness of a value (`if (value)`, `! value`, `a && b`). -/
def truthy : Node → Bool
  | undefined => false
  | null => false
  | bool b => b
  | num n => n != 0
  | str s => s != ""
  | arr _ => true
  | obj _ => true

end Node

open Node

/-! ## The matcher -/

mutual
/-- The function `match (node, criteria)` of the script (`match` is a reserved
word of Lean).  `someElem` and `someField` are the inner
`Object.keys(node).some(nodeKey => match(node[nodeKey], criterion))`, the outer
`Object.keys(criteria).every` runs over `values criteria`. -/
def matchNode : Node → Node → Bool
  | arr elems, criteria =>
    if ! isObject criteria then false
    else (values criteria).all (fun criterion => someElem elems criterion)
  | obj fields, criteria =>
    if ! isObject criteria then false
    else (values criteria).all (fun criterion => someField fields criterion)
  | node, criteria => strictEq node criteria
/-- Some element of a sequence node matches the criterion. -/
def someElem : List Node → Node → Bool
  | [], _ => false
  | x :: rest, criterion => matchNode x criterion || someElem rest criterion
/-- Some field value of a record node matches the criterion. -/
def someField : List (String × Node) → Node → Bool
  | [], _ => false
  | (_, x) :: rest, criterion => matchNode x criterion || someField rest criterion
end

/-! ## The search -/

/-- The `options` argument of `find`: the two flags it reads.  A flag that is
not given is `undefined`, hence falsy. -/
structure Options where
  recursive : Bool := false
  array : Bool := false
  deriving Repr, DecidableEq

mutual
/-- The function `find (node, criteria, options)` of the script; an absent
`options` argument is `none` (`options = options || {}`).  `findElems` and
`findFields` are the two `reduce` loops, which concatenate the results for the
elements (fields) from left to right. -/
def find : Node → Node → Option Options → List Node
  | arr elems, criteria, options =>
    let options := options.getD {}
    if matchNode (arr elems) criteria then [arr elems]
    else if options.array then findElems elems criteria options
    else if options.recursive then findElems elems criteria options
    else []
  | obj fields, criteria, options =>
    let options := options.getD {}
    if matchNode (obj fields) criteria then [obj fields]
    else if options.recursive then findFields fields criteria options
    else []
  | node, criteria, _ =>
    if matchNode node criteria then [node] else []
/-- The `reduce` of `find` over the elements of a sequence. -/
def findElems : List Node → Node → Options → List Node
  | [], _, _ => []
  | x :: rest, criteria, options =>
    find x criteria (some options) ++ findElems rest criteria options
/-- The `reduce` of `find` over the keys of a record. -/
def findFields : List (String × Node) → Node → Options → List Node
  | [], _, _ => []
  | (_, x) :: rest, criteria, options =>
    find x criteria (some options) ++ findFields rest criteria options
end

/-! ## Positions: the search and the pre-order enumeration with occurrences

A syntax tree has no sharing, so an occurrence of a node is identified by its
position: the list of child indices (in `Object.keys` order) leading to it from
the root. -/

/-- The node at a position of a tree, if the position exists. -/
def subtreeAt : Node → List Nat → Option Node
  | node, [] => some node
  | node, i :: rest =>
    match (values node)[i]? with
    | some child => subtreeAt child rest
    | none => none

mutual
/-- The search `find`, reporting with every returned node the position at which
it was found: the same three branches and the same loops as `find`. -/
def findAt : Node → Node → Option Options → List (List Nat × Node)
  | arr elems, criteria, options =>
    let options := options.getD {}
    if matchNode (arr elems) criteria then [([], arr elems)]
    else if options.array then findAtElems elems criteria options 0
    else if options.recursive then findAtElems elems criteria options 0
    else []
  | obj fields, criteria, options =>
    let options := options.getD {}
    if matchNode (obj fields) criteria then [([], obj fields)]
    else if options.recursive then findAtFields fields criteria options 0
    else []
  | node, criteria, _ =>
    if matchNode node criteria then [([], node)] else []
/-- The loop of `findAt` over the elements of a sequence, from index `i` on. -/
def findAtElems : List Node → Node → Options → Nat → List (List Nat × Node)
  | [], _, _, _ => []
  | x :: rest, criteria, options, i =>
    (findAt x criteria (some options)).map (fun r => (i :: r.1, r.2))
      ++ findAtElems rest criteria options (i + 1)
/-- The loop of `findAt` over the fields of a record, from index `i` on. -/
def findAtFields : List (String × Node) → Node → Options → Nat → List (List Nat × Node)
  | [], _, _, _ => []
  | (_, x) :: rest, criteria, options, i =>
    (findAt x criteria (some options)).map (fun r => (i :: r.1, r.2))
      ++ findAtFields rest criteria options (i + 1)
end

mutual
/-- The pre-order enumeration of the occurrences of a tree: the node itself,
then its children from left to right (elements in index order, fields in field
order), each with its own descendants. -/
def preorderAt : Node → List (List Nat × Node)
  | arr elems => ([], arr elems) :: preorderAtElems elems 0
  | obj fields => ([], obj fields) :: preorderAtFields fields 0
  | node => [([], node)]
/-- The pre-order enumeration below the elements of a sequence, from index `i` on. -/
def preorderAtElems : List Node → Nat → List (List Nat × Node)
  | [], _ => []
  | x :: rest, i =>
    (preorderAt x).map (fun r => (i :: r.1, r.2)) ++ preorderAtElems rest (i + 1)
/-- The pre-order enumeration below the fields of a record, from index `i` on. -/
def preorderAtFields : List (String × Node) → Nat → List (List Nat × Node)
  | [], _ => []
  | (_, x) :: rest, i =>
    (preorderAt x).map (fun r => (i :: r.1, r.2)) ++ preorderAtFields rest (i + 1)
end

/-- The results of `f` on the children `xs`, from left to right, each position
extended by the index of the child it lies under (the first child has index `i`). -/
def below (f : Node → List (List Nat × Node)) : Nat → List Node → List (List Nat × Node)
  | _, [] => []
  | i, x :: rest => (f x).map (fun r => (i :: r.1, r.2)) ++ below f (i + 1) rest

/-- The condition under which `find` searches the children of a node that does not match:
`Array.isArray(node) && options.array`, or else `isObject(node) && options.recursive`. -/
def descends (node : Node) (options : Options) : Bool :=
  (isArray node && options.array) || (isObject node && options.recursive)

/-- Two reported occurrences are apart when neither position is an initial
segment of the other: they are different occurrences and neither lies inside
the other. -/
def apart (r s : List Nat × Node) : Prop :=
  ¬ r.1 <+: s.1 ∧ ¬ s.1 <+: r.1

/-- The pre-order enumeration of the nodes of a tree. -/
def preorder (node : Node) : List Node :=
  (preorderAt node).map Prod.snd

/-! ## Diagnostics and property access -/

/-- How a step of the script ends abnormally: `fail` prints a message on the
standard error stream and terminates the process with status 1; reading a
property of `undefined` or `null` throws a `TypeError` that nothing catches. -/
inductive Failure where
  | exit (stderr : String)
  | typeError
  deriving Repr, DecidableEq

mutual
/-- The string conversion applied by a template literal. -/
def jsToString : Node → String
  | undefined => "undefined"
  | null => "null"
  | Node.bool b => if b then "true" else "false"
  | num n => toString n
  | str s => s
  | arr elems => joinElems elems
  | obj _ => "[object Object]"
/-- The conversion of a sequence: its elements separated by commas, `undefined` and
`null` elements contributing the empty string. -/
def joinElems : List Node → String
  | [] => ""
  | x :: rest =>
    (match x with
      | undefined => ""
      | null => ""
      | y => jsToString y)
    ++ (match rest with
      | [] => ""
      | _ :: _ => "," ++ joinElems rest)
end

/-- The text that `fail (message, filePath, lineNumber)` prints; an argument
that is not passed is `undefined`. -/
def debugFriendlyMessage (message filePath : String) (lineNumber : Node) : String :=
  if truthy (str filePath) then
    "Error parsing \"" ++ filePath ++ "\""
      ++ (if truthy lineNumber then " at line " ++ jsToString lineNumber else "")
      ++ ":\n" ++ message
  else
    message

/-- The function `fail` of the script: it prints the message and terminates the process. -/
def fail {α : Type} (message filePath : String) (lineNumber : Node) : Except Failure α :=
  .error (.exit (debugFriendlyMessage message filePath lineNumber))

/-- The value of the own field `key` of a record, if it has one. -/
def field? (node : Node) (key : String) : Option Node :=
  match node with
  | obj fields => fields.lookup key
  | _ => none

/-- Property access `node.key` for the property names the script reads (`type`, `loc`,
`start`, `line`, `column`, `expression`, `right`, `body`, `argument`, `name`,
`init`, `elements`): a `TypeError` on
`undefined` and `null`, the field of a record, and `undefined` where the
property is missing (none of these names is an index or a built-in property of
a sequence or of a primitive). -/
def get (node : Node) (key : String) : Except Failure Node :=
  match node with
  | undefined => .error .typeError
  | null => .error .typeError
  | other => .ok ((field? other key).getD undefined)

/-! ## The extraction step `findExportedFunction` -/

/-- The constant `FUNCTION_EXPRESSION_TYPES`, in insertion order. -/
def FUNCTION_EXPRESSION_TYPES : List String :=
  ["FunctionExpression", "ArrowFunctionExpression"]

/-- Membership `types.has(nodeType)` in a set of strings. -/
def has (types : List String) (nodeType : Node) : Bool :=
  match nodeType with
  | str s => types.contains s
  | _ => false

/-- The function `assertType (node, types, filePath)` of the script. -/
def assertType (node : Node) (types : List String) (filePath : String) :
    Except Failure Unit := do
  if ! truthy node then
    fail ("Expected type [" ++ ",".intercalate types ++ "], found nothing") filePath undefined
  let nodeType ← get node "type"
  let line ← get (← get (← get node "loc") "start") "line"
  let column ← get (← get (← get node "loc") "start") "column"
  if ! has types nodeType then
    fail ("Expected type [" ++ ",".intercalate types ++ "], found \""
      ++ jsToString nodeType ++ "\" at column \"" ++ jsToString column ++ "\"") filePath line

/-- The criteria with which `findExportedFunction` searches. -/
def exportCriteria : Node :=
  obj [("type", str "ExpressionStatement"),
    ("expression", obj [("type", str "AssignmentExpression"),
      ("left", obj [("type", str "MemberExpression"),
        ("object", obj [("type", str "Identifier"), ("name", str "module")]),
        ("property", obj [("type", str "Identifier"), ("name", str "exports")])])])]

/-- The search of `findExportedFunction`: `find` with the export criteria and
the option `recursive`. -/
def exported (node : Node) : List Node :=
  find node exportCriteria (some { recursive := true })

/-- The function `findExportedFunction (node, filePath)` of the script. -/
def findExportedFunction (node : Node) (filePath : String) : Except Failure Node := do
  let exported := exported node
  if exported.length != 1 then
    fail ("Expected 1 export, found " ++ toString exported.length) filePath undefined
  let exportedFunction ← get (← get (exported.getD 0 undefined) "expression") "right"
  assertType exportedFunction FUNCTION_EXPRESSION_TYPES filePath
  get exportedFunction "body"

/-! ## The shape of an export statement

The statement `module.exports = <right-hand side>` as the parser represents it,
each field read under its own name. -/

/-- The field is the string `s`. -/
def isString (value : Option Node) (s : String) : Bool :=
  match value with
  | some (str t) => t == s
  | _ => false

/-- An `Identifier` node with the given name. -/
def isIdentifier (node : Node) (name : String) : Bool :=
  isString (field? node "type") "Identifier" && isString (field? node "name") name

/-- The member expression `module.exports`: object `Identifier` `module`,
property `Identifier` `exports`. -/
def isModuleExports (node : Node) : Bool :=
  isString (field? node "type") "MemberExpression"
    && (match field? node "object" with
      | some object => isIdentifier object "module"
      | none => false)
    && (match field? node "property" with
      | some property => isIdentifier property "exports"
      | none => false)

/-- An expression statement whose expression is an assignment with left-hand
side `module.exports`. -/
def isExportStatement (node : Node) : Bool :=
  isString (field? node "type") "ExpressionStatement"
    && (match field? node "expression" with
      | some expression =>
        isString (field? expression "type") "AssignmentExpression"
          && (match field? expression "left" with
            | some left => isModuleExports left
            | none => false)
      | none => false)

/-- The right-hand side `statement.expression.right` of an assignment statement. -/
def rightOf (statement : Node) : Option Node :=
  (field? statement "expression").bind (fun expression => field? expression "right")

/-- The start line `node.loc.start.line` of a node that carries location data. -/
def lineOf (node : Node) : Option Node :=
  ((field? node "loc").bind (fun loc => field? loc "start")).bind
    (fun start => field? start "line")

/-- The start column `node.loc.start.column` of a node that carries location data. -/
def columnOf (node : Node) : Option Node :=
  ((field? node "loc").bind (fun loc => field? loc "start")).bind
    (fun start => field? start "column")

/-- The occurrences of export statements in a tree, in pre-order. -/
def exportStatements (ast : Node) : List (List Nat × Node) :=
  (preorderAt ast).filter (fun r => isExportStatement r.2)

/-! ## Sample trees

Syntax trees as the parser produces them with `locations: true`: every node is
a record with the fields `type`, `start`, `end`, `loc` followed by the fields
of its kind. -/

/-- A parsed node of the given type at lines `line`..`endLine` and columns
`column`..`endColumn`, with source offsets `start`..`stop`. -/
def astNode (type : String) (start stop line column endLine endColumn : Int)
    (fields : List (String × Node)) : Node :=
  obj ([("type", str type), ("start", num start), ("end", num stop),
    ("loc", obj [("start", obj [("line", num line), ("column", num column)]),
      ("end", obj [("line", num endLine), ("column", num endColumn)])])] ++ fields)

/-- An `Identifier` node on one line. -/
def identifier (name : String) (start stop line column endColumn : Int) : Node :=
  astNode "Identifier" start stop line column line endColumn [("name", str name)]

/-- The expression `module.exports` starting at the given offset, line and column. -/
def moduleExports (start line column : Int) : Node :=
  astNode "MemberExpression" start (start + 14) line column line (column + 14)
    [("object", identifier "module" start (start + 6) line column (column + 6)),
     ("property", identifier "exports" (start + 7) (start + 14) line (column + 7) (column + 14)),
     ("computed", Node.bool false)]

/-- The body `\x7b return [] \x7d` of the sample function, on line 1 from column 28. -/
def sampleBody : Node :=
  astNode "BlockStatement" 28 41 1 28 1 41
    [("body", arr [astNode "ReturnStatement" 30 39 1 30 1 39
      [("argument", astNode "ArrayExpression" 37 39 1 37 1 39 [("elements", arr [])])]])]

/-- The expression `function () \x7b return [] \x7d` on line 1 from column 17. -/
def sampleFunction : Node :=
  astNode "FunctionExpression" 17 41 1 17 1 41
    [("id", null), ("generator", Node.bool false), ("expression", Node.bool false),
     ("params", arr []), ("body", sampleBody)]

/-- The statement `module.exports = function () \x7b return [] \x7d` on line 1. -/
def sampleExport : Node :=
  astNode "ExpressionStatement" 0 41 1 0 1 41
    [("expression", astNode "AssignmentExpression" 0 41 1 0 1 41
      [("operator", str "="), ("left", moduleExports 0 1 0), ("right", sampleFunction)])]

/-- The statement `x = module.exports` on line 2: an assignment whose right-hand
side, not its left-hand side, is `module.exports`. -/
def sampleAlias : Node :=
  astNode "ExpressionStatement" 42 60 2 0 2 18
    [("expression", astNode "AssignmentExpression" 42 60 2 0 2 18
      [("operator", str "="), ("left", identifier "x" 42 43 2 0 1),
       ("right", moduleExports 46 2 4)])]

/-- The statement `module.exports = \x7b\x7d` on line 1: the export is an object literal. -/
def sampleObjectExport : Node :=
  astNode "ExpressionStatement" 0 19 1 0 1 19
    [("expression", astNode "AssignmentExpression" 0 19 1 0 1 19
      [("operator", str "="), ("left", moduleExports 0 1 0),
       ("right", astNode "ObjectExpression" 17 19 1 17 1 19 [("properties", arr [])])])]

/-- A parsed file (`Program` node) with the given statements. -/
def program (stop endLine endColumn : Int) (body : List Node) : Node :=
  astNode "Program" 0 stop 1 0 endLine endColumn
    [("body", arr body), ("sourceType", str "script")]

/-! ## The extraction step `findReturnedData` -/

/-- The constant `RETURN_TYPES`. -/
def RETURN_TYPES : List String :=
  ["ReturnStatement"]

/-- The constant `ROUTE_DEFINITION_TYPES`. -/
def ROUTE_DEFINITION_TYPES : List String :=
  ["ArrayExpression"]

/-- The criteria with which `findReturnedData` searches the statement list of a block. -/
def returnCriteria : Node :=
  obj [("type", str "ReturnStatement")]

/-- The criteria with which `findReturnedData` searches the declarator of the
returned identifier; `name` is the value of `returnedData.name`. -/
def declaratorCriteria (name : Node) : Node :=
  obj [("type", str "VariableDeclarator"),
    ("id", obj [("type", str "Identifier"), ("name", name)])]

/-- The first search of `findReturnedData`: `find` on the statement list with the
return criteria and the option `array`. -/
def returned (body : Node) : List Node :=
  find body returnCriteria (some { array := true })

/-- The second search of `findReturnedData`: `find` on the whole function node with
the declarator criteria and the option `recursive`. -/
def routeDefinitions (functionNode name : Node) : List Node :=
  find functionNode (declaratorCriteria name) (some { recursive := true })

/-- The function `findReturnedData (functionNode, filePath)` of the script.  In the
`else` branch the variable `returnedData` has not been assigned yet, so
`assertType` receives `undefined`. -/
def findReturnedData (functionNode : Node) (filePath : String) : Except Failure Node := do
  let returnedData ←
    if strictEq (← get functionNode "type") (str "BlockStatement") then do
      let returned := returned (← get functionNode "body")
      if returned.length != 1 then
        fail ("Expected 1 return statement, found " ++ toString returned.length)
          filePath undefined
      get (returned.getD 0 undefined) "argument"
    else do
      assertType undefined RETURN_TYPES filePath
      get functionNode "argument"
  let returnedData ←
    if strictEq (← get returnedData "type") (str "Identifier") then do
      let routeDefinitions := routeDefinitions functionNode (← get returnedData "name")
      if routeDefinitions.length != 1 then
        fail ("Expected 1 set of route definitions, found "
          ++ toString routeDefinitions.length) filePath undefined
      get (routeDefinitions.getD 0 undefined) "init"
    else
      pure returnedData
  assertType returnedData ROUTE_DEFINITION_TYPES filePath
  get returnedData "elements"

/-- The statements of `findReturnedData` after the first conditional (the
resolution of a returned identifier, the type assertion and the result), as a
function of the returned expression found by the first conditional. -/
def resolveReturnedData (functionNode returnedData : Node) (filePath : String) :
    Except Failure Node := do
  let returnedData ←
    if strictEq (← get returnedData "type") (str "Identifier") then do
      let routeDefinitions := routeDefinitions functionNode (← get returnedData "name")
      if routeDefinitions.length != 1 then
        fail ("Expected 1 set of route definitions, found "
          ++ toString routeDefinitions.length) filePath undefined
      get (routeDefinitions.getD 0 undefined) "init"
    else
      pure returnedData
  assertType returnedData ROUTE_DEFINITION_TYPES filePath
  get returnedData "elements"

/-! ## The output -/

/-- One entry of the list that `parseRoutes` produces. -/
structure File where
  path : String
  ast : Node

/-- The callback that `generateOutput` passes to `files.reduce`.  `stringify route` is
the text that `document += JSON.stringify(route, null, '  ')` appends; calling
`routes.forEach` on a value that is not a sequence throws a `TypeError`. -/
def appendRoutes (stringify : Node → String) (document : String) (file : File) :
    Except Failure String := do
  let filePath := file.path
  let ast := file.ast
  let exportedFunction ← findExportedFunction ast filePath
  let routes ← findReturnedData exportedFunction filePath
  match routes with
  | arr elems => pure (elems.foldl (fun document route => document ++ stringify route) document)
  | _ => .error .typeError

/-- The function `generateOutput (docs, files)` of the script: the `reduce` over the
files, starting from the empty document. -/
def generateOutput (stringify : Node → String) (_docs : Node) (files : List File) :
    Except Failure String :=
  files.foldlM (appendRoutes stringify) ""

/-- The extraction of the routes of one file, as `generateOutput` performs it. -/
def extract (file : File) : Except Failure Node := do
  let exportedFunction ← findExportedFunction file.ast file.path
  findReturnedData exportedFunction file.path

/-! ## The shape of return statements and declarators -/

/-- A `ReturnStatement` node. -/
def isReturnStatement (node : Node) : Bool :=
  isString (field? node "type") "ReturnStatement"

/-- A `VariableDeclarator` node whose `id` is the identifier `name`. -/
def isDeclarator (name : String) (node : Node) : Bool :=
  isString (field? node "type") "VariableDeclarator"
    && (match field? node "id" with
      | some id => isIdentifier id name
      | none => false)

/-- The occurrences of declarators of `name` in a tree, in pre-order. -/
def declarators (name : String) (functionNode : Node) : List (List Nat × Node) :=
  (preorderAt functionNode).filter (fun r => isDeclarator name r.2)

/-! ## Sample function bodies

The bodies of the exported function in files of the form
`module.exports = function () <body>` written on one line, so that the column
of a node is its offset and the body starts at offset 29. -/

/-- A parsed node of a one-line source, from offset `start` to offset `stop`. -/
def lineNode (type : String) (start stop : Int) (fields : List (String × Node)) : Node :=
  astNode type start stop 1 start 1 stop fields

/-- The object literal `\x7bm:<value>\x7d` (five characters) at offset `start`. -/
def objectLiteral (start value : Int) : Node :=
  lineNode "ObjectExpression" start (start + 5)
    [("properties", arr [lineNode "Property" (start + 1) (start + 4)
      [("method", Node.bool false), ("shorthand", Node.bool false),
       ("computed", Node.bool false),
       ("key", identifier "m" (start + 1) (start + 2) 1 (start + 1) (start + 2)),
       ("value", lineNode "Literal" (start + 3) (start + 4)
         [("value", num value), ("raw", str (toString value))]),
       ("kind", str "init")]])]

/-- An array literal with the given elements. -/
def arrayLiteral (start stop : Int) (elements : List Node) : Node :=
  lineNode "ArrayExpression" start stop [("elements", arr elements)]

/-- A statement `return <argument>`; the argument of a bare `return` is `null`. -/
def returnStatement (start stop : Int) (argument : Node) : Node :=
  lineNode "ReturnStatement" start stop [("argument", argument)]

/-- A declarator `<name> = <init>` from offset `start` to offset `stop`. -/
def declarator (start stop : Int) (name : String) (init : Node) : Node :=
  lineNode "VariableDeclarator" start stop
    [("id", identifier name start (start + name.length) 1 start (start + name.length)),
     ("init", init)]

/-- A statement `var <declarator>;`. -/
def declaration (start stop : Int) (declaration : Node) : Node :=
  lineNode "VariableDeclaration" start stop
    [("declarations", arr [declaration]), ("kind", str "var")]

/-- A block with the given statements. -/
def block (start stop : Int) (body : List Node) : Node :=
  lineNode "BlockStatement" start stop [("body", arr body)]

/-- The declarator `routes = [ \x7bm:1\x7d, \x7bm:2\x7d ]` at offset 35. -/
def routesDeclarator : Node :=
  declarator 35 60 "routes" (arrayLiteral 44 60 [objectLiteral 46 1, objectLiteral 53 2])

/-- The body `\x7b var routes = [ \x7bm:1\x7d, \x7bm:2\x7d ]; return routes; \x7d`. -/
def routesBody : Node :=
  block 29 78 [declaration 31 61 routesDeclarator,
    returnStatement 62 76 (identifier "routes" 69 75 1 69 75)]

/-- The body
`\x7b var routes = [ \x7bm:1\x7d, \x7bm:2\x7d ]; var alias = routes; return routes; \x7d`. -/
def aliasBody : Node :=
  block 29 98 [declaration 31 61 routesDeclarator,
    declaration 62 81 (declarator 66 80 "alias" (identifier "routes" 74 80 1 74 80)),
    returnStatement 82 96 (identifier "routes" 89 95 1 89 95)]

/-- The body `\x7b return [ \x7bm:1\x7d ] \x7d`. -/
def inlineBody : Node :=
  block 29 49 [returnStatement 31 47 (arrayLiteral 38 47 [objectLiteral 40 1])]

/-- The body `\x7b return [ \x7bm:1\x7d ]; return [ \x7bm:1\x7d ] \x7d`. -/
def twoReturnsBody : Node :=
  block 29 67 [returnStatement 31 48 (arrayLiteral 38 47 [objectLiteral 40 1]),
    returnStatement 49 65 (arrayLiteral 56 65 [objectLiteral 58 1])]

/-- The statements of the body `\x7b if (x) \x7b return [] \x7d return [ \x7bm:1\x7d ] \x7d`:
one return statement is nested in the conditional, one is a direct statement. -/
def nestedReturnStatements : List Node :=
  [lineNode "IfStatement" 31 51
      [("test", identifier "x" 35 36 1 35 36),
       ("consequent", block 38 51 [returnStatement 40 49 (arrayLiteral 47 49 [])]),
       ("alternate", null)],
    returnStatement 52 68 (arrayLiteral 59 68 [objectLiteral 61 1])]

/-- The body `\x7b if (x) \x7b return [] \x7d return [ \x7bm:1\x7d ] \x7d`. -/
def nestedReturnBody : Node :=
  block 29 70 nestedReturnStatements

/-- The body `\x7b return; \x7d`. -/
def bareReturnBody : Node :=
  block 29 40 [returnStatement 31 38 null]

/-- The statement `x = module.exports` at the start of line `line`, at offset
`start`: an assignment whose right-hand side, not its left-hand side, is
`module.exports`. -/
def aliasStatement (start line : Int) : Node :=
  astNode "ExpressionStatement" start (start + 18) line 0 line 18
    [("expression", astNode "AssignmentExpression" start (start + 18) line 0 line 18
      [("operator", str "="), ("left", identifier "x" start (start + 1) line 0 1),
       ("right", moduleExports (start + 4) line 4)])]

/-- The file that consists of the statement `x = module.exports`: it contains no
assignment to `module.exports`. -/
def aliasOnlyFile : Node :=
  program 18 1 18 [aliasStatement 0 1]

/-- The file `module.exports = \x7b\x7d` followed, on line 2, by `x = module.exports`: it
contains one assignment to `module.exports`, of an object literal. -/
def objectExportAliasFile : Node :=
  program 38 2 18 [sampleObjectExport, aliasStatement 20 2]

/-- The statements of the body `\x7b var a = routes; return routes \x7d`: the returned
name `routes` is not declared. -/
def undeclaredStatements : List Node :=
  [declaration 31 46 (declarator 35 45 "a" (identifier "routes" 39 45 1 39 45)),
    returnStatement 47 60 (identifier "routes" 54 60 1 54 60)]

/-- The body `\x7b var a = routes; return routes \x7d`. -/
def undeclaredBody : Node :=
  block 29 62 undeclaredStatements

/-- The file `module.exports = function () <body>` of length `stop`. -/
def functionFile (stop : Int) (body : Node) : Node :=
  program stop 1 stop [lineNode "ExpressionStatement" 0 stop
    [("expression", lineNode "AssignmentExpression" 0 stop
      [("operator", str "="), ("left", moduleExports 0 1 0),
       ("right", lineNode "FunctionExpression" 17 stop
         [("id", null), ("generator", Node.bool false), ("expression", Node.bool false),
          ("params", arr []), ("body", body)])])]]

/-- The file `module.exports = () => [ \x7bm:1\x7d ]`: an arrow function with a
single-expression body. -/
def arrowFile : Node :=
  program 32 1 32 [lineNode "ExpressionStatement" 0 32
    [("expression", lineNode "AssignmentExpression" 0 32
      [("operator", str "="), ("left", moduleExports 0 1 0),
       ("right", lineNode "ArrowFunctionExpression" 17 32
         [("id", null), ("generator", Node.bool false), ("expression", Node.bool true),
          ("params", arr []), ("body", arrayLiteral 23 32 [objectLiteral 25 1])])])]]

end ApiDocs

/-!
The bounce gate of `lib/senders/index.js`.

The gate counts, for the address of a send, the recorded bounces of each type
that are recent enough, and rejects the send when a count exceeds its limit.
Times are integers (milliseconds); the bounces of the address (the result of
`db.emailBounces`) and the current time (`Date.now()`) are arguments.
-/

namespace Senders

/-- The errors that the rules raise: `error.emailBouncedHard()`,
`error.emailComplaint()`, `error.emailBouncedSoft()`. -/
inductive BounceError where
  | emailBouncedHard
  | emailComplaint
  | emailBouncedSoft
  deriving DecidableEq, Repr

/-- A duration in milliseconds, or `Infinity`. -/
inductive Duration where
  | finite (ms : Int)
  | infinity
  deriving DecidableEq, Repr

/-- One of `config.bounces.hard`, `config.bounces.soft`, `config.bounces.complaint`;
a property that is not set is `none`. -/
structure BounceLimit where
  max : Option Nat
  duration : Option Nat
  deriving DecidableEq, Repr

/-- The object `config.bounces`; a property that is not set is `none`. -/
structure BounceConfig where
  hard : Option BounceLimit
  soft : Option BounceLimit
  complaint : Option BounceLimit
  deriving DecidableEq, Repr

/-- The constants `MAX_HARD`, `MAX_SOFT`, `MAX_COMPLAINT`:
`limit && limit.max || 0`. -/
def maxOf (limit : Option BounceLimit) : Nat :=
  match limit with
  | some l => l.max.getD 0
  | none => 0

/-- The constants `DURATION_HARD`, `DURATION_SOFT`, `DURATION_COMPLAINT`:
`limit && limit.duration || Infinity`; a duration of 0 is falsy. -/
def durationOf (limit : Option BounceLimit) : Duration :=
  match limit with
  | some l =>
    match l.duration with
    | some d => if d = 0 then .infinity else .finite d
    | none => .infinity
  | none => .infinity

/-- The constant `BOUNCE_TYPE_HARD`. -/
def BOUNCE_TYPE_HARD : Nat := 1

/-- The constant `BOUNCE_TYPE_SOFT`. -/
def BOUNCE_TYPE_SOFT : Nat := 2

/-- The constant `BOUNCE_TYPE_COMPLAINT`. -/
def BOUNCE_TYPE_COMPLAINT : Nat := 3

/-- A recorded bounce of the address. -/
structure Bounce where
  bounceType : Nat
  createdAt : Int
  deriving DecidableEq, Repr

/-- One element of `bounceRules`. -/
structure RuleSet where
  count : Nat
  duration : Duration
  error : BounceError
  max : Nat
  type : Nat
  deriving DecidableEq, Repr

/-- The comparison `bounce.createdAt > now - ruleSet.duration`; `now - Infinity` is
`-Infinity`, which every time exceeds. -/
def within (createdAt now : Int) (duration : Duration) : Bool :=
  match duration with
  | .finite ms => decide (createdAt > now - ms)
  | .infinity => true

/-- The function `checkBounce (bounce, rules, now)`: the loop over the rules, left
by `break` at the first rule of the type of the bounce.  The result is the
list of rules after the call (a count may have been incremented) and the error
thrown, if any. -/
def checkBounce (bounce : Bounce) : List RuleSet → Int → List RuleSet × Option BounceError
  | [], _ => ([], none)
  | ruleSet :: rest, now =>
    if bounce.bounceType = ruleSet.type then
      if within bounce.createdAt now ruleSet.duration then
        let ruleSet := { ruleSet with count := ruleSet.count + 1 }
        if ruleSet.count > ruleSet.max then
          (ruleSet :: rest, some ruleSet.error)
        else
          (ruleSet :: rest, none)
      else
        (ruleSet :: rest, none)
    else
      let result := checkBounce bounce rest now
      (ruleSet :: result.1, result.2)

/-- The array `bounceRules` as it is created, for the given `config.bounces`
(`config.bounces || \x7b\x7d`: without it every limit is unset). -/
def bounceRules (config : Option BounceConfig) : List RuleSet :=
  [{ count := 0, duration := durationOf (config.bind fun c => c.hard),
     error := .emailBouncedHard, max := maxOf (config.bind fun c => c.hard),
     type := BOUNCE_TYPE_HARD },
   { count := 0, duration := durationOf (config.bind fun c => c.complaint),
     error := .emailComplaint, max := maxOf (config.bind fun c => c.complaint),
     type := BOUNCE_TYPE_COMPLAINT },
   { count := 0, duration := durationOf (config.bind fun c => c.soft),
     error := .emailBouncedSoft, max := maxOf (config.bind fun c => c.soft),
     type := BOUNCE_TYPE_SOFT }]

/-- The assignment `bounceRules[0].count = bounceRules[1].count = bounceRules[2].count = 0`
(the array always has three elements). -/
def resetCounts : List RuleSet → List RuleSet
  | [r0, r1, r2] =>
    [{ r0 with count := 0 }, { r1 with count := 0 }, { r2 with count := 0 }]
  | rules => rules

/-- The loop `bounces.forEach(bounce => checkBounce(bounce, bounceRules, now))`, ended by
the first error thrown. -/
def forEachBounce : List Bounce → List RuleSet → Int → List RuleSet × Except BounceError Unit
  | [], rules, _ => (rules, .ok ())
  | bounce :: rest, rules, now =>
    match checkBounce bounce rules now with
    | (rules, some err) => (rules, .error err)
    | (rules, none) => forEachBounce rest rules now

/-- The function `bounceGatedMailer`, for the bounces that `db.emailBounces(email)`
delivers and the time `now`: `rules` is the array `bounceRules` as earlier calls
left it; the result is the array after the call, and `.ok ()` when the mailer
is returned, `.error err` when the promise is rejected with `err`. -/
def bounceGatedMailer (rules : List RuleSet) (bounces : List Bounce) (now : Int) :
    List RuleSet × Except BounceError Unit :=
  forEachBounce bounces (resetCounts rules) now

/-- The bounce is counted by the rule: it has the type of the rule and
`createdAt > now - duration`. -/
def hit (bounce : Bounce) (now : Int) (r : RuleSet) : Bool :=
  bounce.bounceType == r.type && within bounce.createdAt now r.duration

/-- The number of bounces in the list that the rule counts. -/
def countHits (r : RuleSet) (now : Int) (bounces : List Bounce) : Nat :=
  (bounces.filter (fun b => hit b now r)).length

/-- The rule after a bounce has been checked without an error. -/
def bump (bounce : Bounce) (now : Int) (r : RuleSet) : RuleSet :=
  if hit bounce now r then { r with count := r.count + 1 } else r

/-- The rule after the bounces `seen` have been checked without an error. -/
def advance (now : Int) (seen : List Bounce) (r : RuleSet) : RuleSet :=
  { r with count := r.count + countHits r now seen }

/-- A sample `config.bounces`: at most one hard bounce in 1000 ms, no complaint at
all (no duration: all complaints count), nothing set for soft bounces. -/
def sampleConfig : Option BounceConfig :=
  some { hard := some { max := some 1, duration := some 1000 },
         soft := none,
         complaint := some { max := some 0, duration := none } }

/-- The rules of the sample configuration as an earlier call may have left them,
with counts 2, 0 and 1. -/
def staleRules : List RuleSet :=
  [{ count := 2, duration := .finite 1000, error := .emailBouncedHard, max := 1,
     type := BOUNCE_TYPE_HARD },
   { count := 0, duration := .infinity, error := .emailComplaint, max := 0,
     type := BOUNCE_TYPE_COMPLAINT },
   { count := 1, duration := .infinity, error := .emailBouncedSoft, max := 0,
     type := BOUNCE_TYPE_SOFT }]

/-- Sample bounces at time 1000: a recent hard bounce, an old hard bounce, a
bounce of an unknown type, a recent hard bounce and a complaint. -/
def sampleBounces : List Bounce :=
  [⟨1, 500⟩, ⟨1, 0⟩, ⟨7, 999⟩, ⟨1, 600⟩, ⟨3, 0⟩]

end Senders

/-! ## Unfolding lemmas -/

namespace ApiDocs

open Node

theorem someElem_eq (xs : List Node) (c : Node) :
    someElem xs c = xs.any (fun x => matchNode x c) := by
  induction xs with
  | nil => simp [someElem]
  | cons x rest ih => simp [someElem, ih]

theorem someField_eq (fs : List (String × Node)) (c : Node) :
    someField fs c = (fs.map Prod.snd).any (fun x => matchNode x c) := by
  induction fs with
  | nil => simp [someField]
  | cons f rest ih =>
    obtain ⟨k, x⟩ := f
    simp only [someField, ih, List.map_cons, List.any_cons]

/-- The body of `match` as the script writes it. -/
theorem matchNode_eq (node criteria : Node) :
    matchNode node criteria =
      if ! isObject node then strictEq node criteria
      else if ! isObject criteria then false
      else (values criteria).all (fun c => (values node).any (fun n => matchNode n c)) := by
  cases node <;> simp [matchNode, isObject, values, someElem_eq, someField_eq]

theorem findElems_eq (xs : List Node) (c : Node) (o : Options) :
    findElems xs c o = xs.flatMap (fun x => find x c (some o)) := by
  induction xs with
  | nil => simp [findElems]
  | cons x rest ih => simp [findElems, ih]

/-- The `reduce` loop of `find`, which starts from `[]` and replaces `results` by
`results.concat(find(property, criteria, options))`, computes `findElems`. -/
theorem findElems_eq_reduce (xs : List Node) (c : Node) (o : Options) :
    xs.foldl (fun results property => results ++ find property c (some o)) [] =
      findElems xs c o := by
  have key : ∀ (ys : List Node) (acc : List Node),
      ys.foldl (fun results property => results ++ find property c (some o)) acc =
        acc ++ findElems ys c o := by
    intro ys
    induction ys with
    | nil => intro acc; simp [findElems]
    | cons y rest ih => intro acc; simp [findElems, ih]
  simpa using key xs []

theorem findFields_eq (fs : List (String × Node)) (c : Node) (o : Options) :
    findFields fs c o = (fs.map Prod.snd).flatMap (fun x => find x c (some o)) := by
  induction fs with
  | nil => simp [findFields]
  | cons f rest ih =>
    obtain ⟨k, x⟩ := f
    simp only [findFields, ih, List.map_cons, List.flatMap_cons]

/-- The body of `find` as the script writes it. -/
theorem find_eq (node criteria : Node) (options : Option Options) :
    find node criteria options =
      if matchNode node criteria then [node]
      else if isArray node && (options.getD {}).array then
        (values node).flatMap (fun x => find x criteria (some (options.getD {})))
      else if isObject node && (options.getD {}).recursive then
        (values node).flatMap (fun x => find x criteria (some (options.getD {})))
      else [] := by
  cases node <;> simp [find, isObject, isArray, values, findElems_eq, findFields_eq]

theorem find_none (node criteria : Node) :
    find node criteria none = find node criteria (some {}) := by
  rw [find_eq, find_eq]; rfl

theorem find_some (node criteria : Node) (o : Options) :
    find node criteria (some o) =
      if matchNode node criteria then [node]
      else if descends node o then (values node).flatMap (fun x => find x criteria (some o))
      else [] := by
  rw [find_eq]
  simp only [Option.getD_some, descends]
  by_cases h1 : matchNode node criteria = true
  · simp [h1]
  · by_cases h2 : (isArray node && o.array) = true
    · simp [h1, h2]
    · by_cases h3 : (isObject node && o.recursive) = true
      · simp [h1, h2, h3]
      · simp [h1, h2, h3]

theorem findAtElems_eq (xs : List Node) (c : Node) (o : Options) (i : Nat) :
    findAtElems xs c o i = below (fun x => findAt x c (some o)) i xs := by
  induction xs generalizing i with
  | nil => simp [findAtElems, below]
  | cons x rest ih => simp [findAtElems, below, ih]

theorem findAtFields_eq (fs : List (String × Node)) (c : Node) (o : Options) (i : Nat) :
    findAtFields fs c o i = below (fun x => findAt x c (some o)) i (fs.map Prod.snd) := by
  induction fs generalizing i with
  | nil => simp [findAtFields, below]
  | cons f rest ih =>
    obtain ⟨k, x⟩ := f
    simp only [findAtFields, ih, List.map_cons, below]

theorem findAt_none (node criteria : Node) :
    findAt node criteria none = findAt node criteria (some {}) := by
  cases node <;> simp [findAt]

theorem findAt_some (node criteria : Node) (o : Options) :
    findAt node criteria (some o) =
      if matchNode node criteria then [([], node)]
      else if descends node o then below (fun x => findAt x criteria (some o)) 0 (values node)
      else [] := by
  cases node <;>
    simp [findAt, descends, isObject, isArray, values, findAtElems_eq, findAtFields_eq]
  split
  · rfl
  · by_cases h2 : o.array = true <;> by_cases h3 : o.recursive = true <;> simp [h2, h3]

theorem preorderAtElems_eq (xs : List Node) (i : Nat) :
    preorderAtElems xs i = below preorderAt i xs := by
  induction xs generalizing i with
  | nil => simp [preorderAtElems, below]
  | cons x rest ih => simp [preorderAtElems, below, ih]

theorem preorderAtFields_eq (fs : List (String × Node)) (i : Nat) :
    preorderAtFields fs i = below preorderAt i (fs.map Prod.snd) := by
  induction fs generalizing i with
  | nil => simp [preorderAtFields, below]
  | cons f rest ih =>
    obtain ⟨k, x⟩ := f
    simp only [preorderAtFields, ih, List.map_cons, below]

theorem preorderAt_eq (node : Node) :
    preorderAt node = ([], node) :: below preorderAt 0 (values node) := by
  cases node <;> simp [preorderAt, values, preorderAtElems_eq, preorderAtFields_eq, below]

end ApiDocs

/-! ## Induction over trees -/

namespace ApiDocs

open Node

mutual
theorem induct_node {P : Node → Prop} (hprim : ∀ n, isObject n = false → P n)
    (hstep : ∀ n, isObject n = true → (∀ x ∈ values n, P x) → P n) : (n : Node) → P n
  | arr xs => hstep _ rfl (induct_elems hprim hstep xs)
  | obj fs => hstep _ rfl (induct_fields hprim hstep fs)
  | undefined => hprim _ rfl
  | null => hprim _ rfl
  | Node.bool _ => hprim _ rfl
  | num _ => hprim _ rfl
  | str _ => hprim _ rfl
theorem induct_elems {P : Node → Prop} (hprim : ∀ n, isObject n = false → P n)
    (hstep : ∀ n, isObject n = true → (∀ x ∈ values n, P x) → P n) :
    (xs : List Node) → ∀ x ∈ xs, P x
  | [], _, h => absurd h (List.not_mem_nil _)
  | y :: rest, x, h =>
    (List.mem_cons.1 h).elim (fun e => e ▸ induct_node hprim hstep y)
      (fun h' => induct_elems hprim hstep rest x h')
theorem induct_fields {P : Node → Prop} (hprim : ∀ n, isObject n = false → P n)
    (hstep : ∀ n, isObject n = true → (∀ x ∈ values n, P x) → P n) :
    (fs : List (String × Node)) → ∀ x ∈ fs.map Prod.snd, P x
  | [], _, h => absurd h (List.not_mem_nil _)
  | (_, y) :: rest, x, h =>
    (List.mem_cons.1 h).elim (fun e => e ▸ induct_node hprim hstep y)
      (fun h' => induct_fields hprim hstep rest x h')
end

/-! ## The matcher: primitive and record criteria -/

theorem strictEq_iff_eq (N P : Node) (hN : isObject N = false) :
    strictEq N P = true ↔ N = P := by
  cases N <;> cases P <;> simp_all [strictEq, isObject]

theorem values_of_not_isObject (N : Node) (hN : isObject N = false) : values N = [] := by
  cases N <;> simp_all [values, isObject]

/-- C1: for a primitive criteria `P` and any node `N`, `match (N, P)` is true
if and only if `N` is a primitive and `N` is strictly equal to `P` (for
primitives: the same value of the same type); in particular it is false for
every record and every sequence `N`. -/
theorem match_primitive_criteria (N P : Node) (hP : isObject P = false) :
    (matchNode N P = true ↔ isObject N = false ∧ N = P) ∧
      (isObject N = true → matchNode N P = false) := by
  rw [matchNode_eq]
  cases hN : isObject N
  · simp [strictEq_iff_eq N P hN]
  · simp [hP]

theorem match_primitive_criteria_witness :
    isObject (str "Identifier") = false ∧
      ((matchNode (str "Identifier") (str "Identifier") = true ↔
          isObject (str "Identifier") = false ∧ str "Identifier" = str "Identifier") ∧
        (isObject (str "Identifier") = true →
          matchNode (str "Identifier") (str "Identifier") = false)) :=
  ⟨rfl, match_primitive_criteria (str "Identifier") (str "Identifier") rfl⟩

/-- C2 as stated fails: a sequence node is not a record, yet it matches a record
criteria whose field values are found among its elements:
`match ([ 'a' ], \x7b type: 'a' \x7d)` is true. -/
theorem match_record_criteria_counterexample :
    ¬ (∀ (N : Node) (fields : List (String × Node)),
        (matchNode N (obj fields) = true ↔
          isRecord N = true ∧
            ∀ f ∈ fields, ∃ x ∈ values N, matchNode x f.2 = true) ∧
        (isObject N = false → matchNode N (obj fields) = false)) := by
  intro h
  have h1 := ((h (arr [str "a"]) [("type", str "a")]).1).1 (by decide)
  exact absurd h1.1 (by decide)

theorem matchNode_obj_iff (N : Node) (fields : List (String × Node)) :
    matchNode N (obj fields) = true ↔
      isObject N = true ∧ ∀ f ∈ fields, ∃ x ∈ values N, matchNode x f.2 = true := by
  rw [matchNode_eq]
  cases hN : isObject N
  · have : strictEq N (obj fields) = false := by
      cases N <;> simp_all [strictEq, isObject]
    simp [this]
  · have hv : values (obj fields) = fields.map Prod.snd := rfl
    rw [hv]
    simp only [isObject, Bool.not_true, Bool.false_eq_true, if_false, List.all_eq_true,
      List.any_eq_true, List.mem_map, true_and]
    constructor
    · intro h f hf
      exact h f.2 ⟨f, hf, rfl⟩
    · rintro h c ⟨f, hf, rfl⟩
      exact h f hf

/-- C2, amended: for a record criteria `C`, `match (N, C)` is true if and only if
`N` is an object in the sense of `isObject` (a record or a sequence) and, for
every field of `C`, some field value or element of `N` matches that field's
value; it is false for every primitive `N`. -/
theorem match_record_criteria (N : Node) (fields : List (String × Node)) :
    (matchNode N (obj fields) = true ↔
      isObject N = true ∧ ∀ f ∈ fields, ∃ x ∈ values N, matchNode x f.2 = true) ∧
    (isObject N = false → matchNode N (obj fields) = false) := by
  refine ⟨matchNode_obj_iff N fields, fun hN => ?_⟩
  cases h : matchNode N (obj fields)
  · rfl
  · rw [((matchNode_obj_iff N fields).1 h).1] at hN
    cases hN

/-! ## The search: the case analysis of `find` -/

/-- C3: if `match (node, criteria)` is true then `find (node, criteria, options)`
is the one-element sequence `[node]`, for every `options`, absent ones included. -/
theorem find_of_match (node criteria : Node) (options : Option Options)
    (h : matchNode node criteria = true) : find node criteria options = [node] := by
  rw [find_eq]; simp [h]

theorem find_of_match_witness :
    matchNode sampleExport exportCriteria = true ∧
      find sampleExport exportCriteria none = [sampleExport] :=
  ⟨by decide, find_of_match sampleExport exportCriteria none (by decide)⟩

/-- C4 as stated fails: a sequence that does not match, searched with
`options.array` unset and `options.recursive` set, is searched element by
element: `find ([ 'a' ], 'a', \x7b recursive: true \x7d)` is `[ 'a' ]`, not empty. -/
theorem find_cases_counterexample :
    ¬ (∀ (node criteria : Node) (options : Option Options),
        matchNode node criteria = false →
        find node criteria options =
          if isArray node && (options.getD {}).array then
            (values node).flatMap (fun x => find x criteria (some (options.getD {})))
          else if isRecord node && (options.getD {}).recursive then
            (values node).flatMap (fun x => find x criteria (some (options.getD {})))
          else []) := by
  intro h
  have h1 := congrArg List.length
    (h (arr [str "a"]) (str "a") (some { recursive := true }) (by decide))
  exact absurd h1 (by decide)

/-- C4, amended: for a node that does not match, if it is a sequence and
`options.array` is set, the result is the concatenation in element order of
`find` on each element; otherwise, if it is an object in the sense of
`isObject` (a record or a sequence) and `options.recursive` is set, the result
is the concatenation, in field or element order, of `find` on each field value
or element; in every remaining case (a primitive, a sequence with both options
unset, a record with `options.recursive` unset) the result is empty. -/
theorem find_cases (node criteria : Node) (options : Option Options)
    (h : matchNode node criteria = false) :
    find node criteria options =
      if isArray node && (options.getD {}).array then
        (values node).flatMap (fun x => find x criteria (some (options.getD {})))
      else if isObject node && (options.getD {}).recursive then
        (values node).flatMap (fun x => find x criteria (some (options.getD {})))
      else [] := by
  rw [find_eq]; simp [h]

theorem find_cases_witness :
    matchNode (arr [str "a"]) (str "a") = false ∧
      find (arr [str "a"]) (str "a") (some { recursive := true }) =
        if isArray (arr [str "a"]) &&
            ((some { recursive := true } : Option Options).getD {}).array then
          (values (arr [str "a"])).flatMap
            (fun x => find x (str "a")
              (some ((some { recursive := true } : Option Options).getD {})))
        else if isObject (arr [str "a"]) &&
            ((some { recursive := true } : Option Options).getD {}).recursive then
          (values (arr [str "a"])).flatMap
            (fun x => find x (str "a")
              (some ((some { recursive := true } : Option Options).getD {})))
        else [] :=
  ⟨by decide, find_cases (arr [str "a"]) (str "a") (some { recursive := true }) (by decide)⟩

end ApiDocs

/-! ## Results with their positions -/

namespace ApiDocs

open Node

theorem mem_below (f : Node → List (List Nat × Node)) (xs : List Node) (i : Nat)
    (r : List Nat × Node) :
    r ∈ below f i xs ↔ ∃ j x q, xs[j]? = some x ∧ (q, r.2) ∈ f x ∧ r.1 = (i + j) :: q := by
  induction xs generalizing i with
  | nil => simp [below]
  | cons y rest ih =>
    simp only [below, List.mem_append, List.mem_map, ih]
    constructor
    · rintro (⟨t, ht, rfl⟩ | ⟨j, x, q, hj, hq, hr⟩)
      · exact ⟨0, y, t.1, by simp, ht, by simp⟩
      · exact ⟨j + 1, x, q, by simpa using hj, hq, by rw [hr]; congr 1; omega⟩
    · rintro ⟨j, x, q, hj, hq, hr⟩
      cases j with
      | zero =>
        left
        simp only [List.getElem?_cons_zero, Option.some.injEq] at hj
        subst hj
        refine ⟨(q, r.2), hq, ?_⟩
        obtain ⟨r1, r2⟩ := r
        simp only at hr
        simp [hr]
      | succ j =>
        right
        exact ⟨j, x, q, by simpa using hj, hq, by rw [hr]; congr 1; omega⟩

theorem below_map_snd (f : Node → List (List Nat × Node)) (xs : List Node) (i : Nat) :
    (below f i xs).map Prod.snd = xs.flatMap (fun x => (f x).map Prod.snd) := by
  induction xs generalizing i with
  | nil => simp [below]
  | cons y rest ih => simp [below, ih, Function.comp_def]

theorem below_sublist (f g : Node → List (List Nat × Node)) (xs : List Node) (i : Nat)
    (h : ∀ x ∈ xs, (f x).Sublist (g x)) : (below f i xs).Sublist (below g i xs) := by
  induction xs generalizing i with
  | nil => simp [below]
  | cons y rest ih =>
    simp only [below]
    exact List.Sublist.append ((h y (by simp)).map _)
      (ih (i + 1) (fun x hx => h x (by simp [hx])))

theorem below_pairwise (f : Node → List (List Nat × Node)) (xs : List Node) (i : Nat)
    (h : ∀ x ∈ xs, (f x).Pairwise apart) : (below f i xs).Pairwise apart := by
  induction xs generalizing i with
  | nil => simp [below]
  | cons y rest ih =>
    simp only [below]
    rw [List.pairwise_append]
    refine ⟨?_, ih (i + 1) (fun x hx => h x (by simp [hx])), ?_⟩
    · rw [List.pairwise_map]
      refine (h y (by simp)).imp ?_
      intro a b hab
      simpa [apart, List.cons_prefix_cons] using hab
    · intro a ha b hb
      rw [List.mem_map] at ha
      obtain ⟨t, _, rfl⟩ := ha
      rw [mem_below] at hb
      obtain ⟨j, x, q, _, _, hb1⟩ := hb
      simp only [apart, hb1, List.cons_prefix_cons]
      constructor <;> rintro ⟨h1, _⟩ <;> omega

/-- The nodes reported by `findAt` are the result of `find`. -/
theorem findAt_map_snd (node criteria : Node) (o : Options) :
    (findAt node criteria (some o)).map Prod.snd = find node criteria (some o) := by
  induction node using induct_node with
  | hprim n hn =>
    rw [findAt_some, find_some]
    have : descends n o = false := by simp [descends, hn]; cases n <;> simp_all [isArray, isObject]
    by_cases hm : matchNode n criteria = true <;> simp [hm, this]
  | hstep n hn ih =>
    rw [findAt_some, find_some]
    by_cases hm : matchNode n criteria = true
    · simp [hm]
    · by_cases hd : descends n o = true
      · simp only [hm, hd, if_true, if_false, Bool.false_eq_true, below_map_snd]
        exact List.flatMap_congr ih
      · simp [hm, hd]

/-- Every node reported by `findAt` is the node at the reported position. -/
theorem findAt_subtreeAt (node criteria : Node) (o : Options) :
    ∀ r ∈ findAt node criteria (some o), subtreeAt node r.1 = some r.2 := by
  induction node using induct_node with
  | hprim n hn =>
    rw [findAt_some]
    have : descends n o = false := by simp [descends, hn]; cases n <;> simp_all [isArray, isObject]
    by_cases hm : matchNode n criteria = true <;> simp [hm, this, subtreeAt]
  | hstep n hn ih =>
    rw [findAt_some]
    by_cases hm : matchNode n criteria = true
    · simp [hm, subtreeAt]
    · by_cases hd : descends n o = true
      · simp only [hm, hd, if_true, if_false, Bool.false_eq_true]
        intro r hr
        rw [mem_below] at hr
        obtain ⟨j, x, q, hj, hq, hr1⟩ := hr
        have hx : x ∈ values n := List.getElem?_mem hj
        have := ih x hx (q, r.2) hq
        simp only [Nat.zero_add] at hr1
        rw [hr1]
        simp only [subtreeAt, hj]
        exact this
      · simp [hm, hd]

/-- Every node reported by `findAt` (hence by `find`) matches the criteria. -/
theorem findAt_match (node criteria : Node) (o : Options) :
    ∀ r ∈ findAt node criteria (some o), matchNode r.2 criteria = true := by
  induction node using induct_node with
  | hprim n hn =>
    rw [findAt_some]
    have : descends n o = false := by simp [descends, hn]; cases n <;> simp_all [isArray, isObject]
    by_cases hm : matchNode n criteria = true <;> simp [hm, this]
  | hstep n hn ih =>
    rw [findAt_some]
    by_cases hm : matchNode n criteria = true
    · simp [hm]
    · by_cases hd : descends n o = true
      · simp only [hm, hd, if_true, if_false, Bool.false_eq_true]
        intro r hr
        rw [mem_below] at hr
        obtain ⟨j, x, q, hj, hq, _⟩ := hr
        exact ih x (List.getElem?_mem hj) (q, r.2) hq
      · simp [hm, hd]

/-- The occurrences reported by `findAt` are pairwise apart. -/
theorem findAt_pairwise (node criteria : Node) (o : Options) :
    (findAt node criteria (some o)).Pairwise apart := by
  induction node using induct_node with
  | hprim n hn =>
    rw [findAt_some]
    have : descends n o = false := by simp [descends, hn]; cases n <;> simp_all [isArray, isObject]
    by_cases hm : matchNode n criteria = true <;> simp [hm, this]
  | hstep n hn ih =>
    rw [findAt_some]
    by_cases hm : matchNode n criteria = true
    · simp [hm]
    · by_cases hd : descends n o = true
      · simp only [hm, hd, if_true, if_false, Bool.false_eq_true]
        exact below_pairwise _ _ _ ih
      · simp [hm, hd]

/-- The occurrences reported by `findAt` appear in pre-order. -/
theorem findAt_sublist (node criteria : Node) (o : Options) :
    (findAt node criteria (some o)).Sublist (preorderAt node) := by
  induction node using induct_node with
  | hprim n hn =>
    rw [findAt_some, preorderAt_eq]
    have : descends n o = false := by simp [descends, hn]; cases n <;> simp_all [isArray, isObject]
    by_cases hm : matchNode n criteria = true <;> simp [hm, this]
  | hstep n hn ih =>
    rw [findAt_some, preorderAt_eq]
    by_cases hm : matchNode n criteria = true
    · simp [hm]
    · by_cases hd : descends n o = true
      · simp only [hm, hd, if_true, if_false, Bool.false_eq_true]
        exact List.Sublist.cons _ (below_sublist _ _ _ _ ih)
      · simp [hm, hd]

end ApiDocs

/-! ## The search: nesting, order and completeness -/

namespace ApiDocs

open Node

theorem subtreeAt_cons (node : Node) (i : Nat) (rest : List Nat) (m : Node)
    (h : subtreeAt node (i :: rest) = some m) :
    ∃ child, (values node)[i]? = some child ∧ subtreeAt child rest = some m := by
  simp only [subtreeAt] at h
  cases hc : (values node)[i]? with
  | none => simp [hc] at h
  | some child => exact ⟨child, rfl, by simpa [hc] using h⟩

/-- The pre-order enumeration lists every occurrence of the tree, each with its node. -/
theorem mem_preorderAt (node : Node) :
    ∀ r, r ∈ preorderAt node ↔ subtreeAt node r.1 = some r.2 := by
  induction node using induct_node with
  | hprim n hn =>
    intro r
    obtain ⟨p, m⟩ := r
    rw [preorderAt_eq, values_of_not_isObject n hn]
    cases p with
    | nil => simp [below, subtreeAt, eq_comm]
    | cons i rest => simp [below, subtreeAt, values_of_not_isObject n hn]
  | hstep n hn ih =>
    intro r
    obtain ⟨p, m⟩ := r
    rw [preorderAt_eq]
    cases p with
    | nil =>
      simp only [List.mem_cons, Prod.mk.injEq, true_and, subtreeAt, Option.some.injEq,
        mem_below]
      constructor
      · rintro (h | ⟨j, x, q, _, _, h⟩)
        · exact h.symm
        · cases h
      · intro h
        exact Or.inl h.symm
    | cons i rest =>
      simp only [List.mem_cons, Prod.mk.injEq, mem_below, Nat.zero_add, List.cons.injEq]
      constructor
      · rintro (⟨h, _⟩ | ⟨j, x, q, hj, hq, hi, hrest⟩)
        · cases h
        · subst hi hrest
          simp only [subtreeAt, hj]
          exact (ih x (List.getElem?_mem hj) (rest, m)).1 hq
      · intro h
        obtain ⟨child, hc, hs⟩ := subtreeAt_cons n i rest m h
        exact Or.inr ⟨i, child, rest, hc,
          (ih child (List.getElem?_mem hc) (rest, m)).2 hs, rfl, rfl⟩

/-- With `options.recursive` set, every occurrence of a matching node lies at or
below a reported occurrence. -/
theorem findAt_complete (node criteria : Node) (o : Options) (h : o.recursive = true) :
    ∀ p m, subtreeAt node p = some m → matchNode m criteria = true →
      ∃ r ∈ findAt node criteria (some o), r.1 <+: p := by
  induction node using induct_node with
  | hprim n hn =>
    intro p m hp hm
    cases p with
    | nil =>
      simp only [subtreeAt, Option.some.injEq] at hp
      subst hp
      exact ⟨([], n), by rw [findAt_some]; simp [hm], List.nil_prefix⟩
    | cons i rest =>
      obtain ⟨child, hc, _⟩ := subtreeAt_cons n i rest m hp
      simp [values_of_not_isObject n hn] at hc
  | hstep n hn ih =>
    intro p m hp hm
    by_cases hn' : matchNode n criteria = true
    · exact ⟨([], n), by rw [findAt_some]; simp [hn'], List.nil_prefix⟩
    · cases p with
      | nil =>
        simp only [subtreeAt, Option.some.injEq] at hp
        subst hp
        exact absurd hm hn'
      | cons i rest =>
        obtain ⟨child, hc, hs⟩ := subtreeAt_cons n i rest m hp
        obtain ⟨r, hr, hpre⟩ := ih child (List.getElem?_mem hc) rest m hs hm
        have hd : descends n o = true := by simp [descends, hn, h]
        refine ⟨(i :: r.1, r.2), ?_, by simpa [List.cons_prefix_cons] using hpre⟩
        rw [findAt_some]
        simp only [hn', hd, if_true, if_false, Bool.false_eq_true, mem_below]
        exact ⟨i, child, r.1, hc, hr, by simp⟩

theorem findAt_option (node criteria : Node) (options : Option Options) :
    findAt node criteria options = findAt node criteria (some (options.getD {})) := by
  cases options with
  | none => exact findAt_none node criteria
  | some o => rfl

theorem find_option (node criteria : Node) (options : Option Options) :
    find node criteria options = find node criteria (some (options.getD {})) := by
  cases options with
  | none => exact find_none node criteria
  | some o => rfl

/-- C5: the nodes returned by `find` can be listed with their positions in the
tree (`findAt` runs the same search and reports each node with the position
where it was found); no two returned occurrences are the same, and none lies
inside another: of two returned positions neither is an initial segment of the
other. -/
theorem find_results_not_nested (node criteria : Node) (options : Option Options) :
    (findAt node criteria options).map Prod.snd = find node criteria options ∧
      (∀ r ∈ findAt node criteria options, subtreeAt node r.1 = some r.2) ∧
      (findAt node criteria options).Pairwise
        (fun r s => ¬ r.1 <+: s.1 ∧ ¬ s.1 <+: r.1) := by
  rw [findAt_option, find_option]
  exact ⟨findAt_map_snd _ _ _, findAt_subtreeAt _ _ _, findAt_pairwise _ _ _⟩

/-- C6: the sequence returned by `find` is a subsequence of the pre-order
enumeration of the nodes of the tree, and the returned occurrences are a
subsequence of the pre-order enumeration of its occurrences. -/
theorem find_sublist_preorder (node criteria : Node) (options : Option Options) :
    (find node criteria options).Sublist (preorder node) ∧
      (findAt node criteria options).Sublist (preorderAt node) ∧
      (findAt node criteria options).map Prod.snd = find node criteria options := by
  rw [findAt_option, find_option]
  refine ⟨?_, findAt_sublist _ _ _, findAt_map_snd _ _ _⟩
  rw [← findAt_map_snd]
  exact (findAt_sublist _ _ _).map _

/-- C7: with `options.recursive` set, every node returned by `find` matches the
criteria, and every occurrence of a matching node in the tree either is
returned or lies properly inside a returned occurrence. -/
theorem find_outermost_matches (node criteria : Node) (o : Options)
    (h : o.recursive = true) :
    (∀ m ∈ find node criteria (some o), matchNode m criteria = true) ∧
      (findAt node criteria (some o)).map Prod.snd = find node criteria (some o) ∧
      (∀ p m, subtreeAt node p = some m → matchNode m criteria = true →
        (p, m) ∈ findAt node criteria (some o) ∨
          ∃ r ∈ findAt node criteria (some o), r.1 <+: p ∧ r.1 ≠ p) := by
  refine ⟨?_, findAt_map_snd _ _ _, ?_⟩
  · intro m hm
    rw [← findAt_map_snd, List.mem_map] at hm
    obtain ⟨r, hr, rfl⟩ := hm
    exact findAt_match _ _ _ r hr
  · intro p m hp hm
    obtain ⟨r, hr, hpre⟩ := findAt_complete node criteria o h p m hp hm
    by_cases he : r.1 = p
    · left
      have h1 := findAt_subtreeAt node criteria o r hr
      rw [he, hp] at h1
      obtain ⟨r1, r2⟩ := r
      simp only at he h1
      simp only [Option.some.injEq] at h1
      rw [← he, h1]
      exact hr
    · exact Or.inr ⟨r, hr, hpre, he⟩

theorem find_outermost_matches_witness :
    ({ recursive := true } : Options).recursive = true ∧
      ((∀ m ∈ find (program 60 2 18 [sampleExport, sampleAlias]) exportCriteria
            (some { recursive := true }), matchNode m exportCriteria = true) ∧
        (findAt (program 60 2 18 [sampleExport, sampleAlias]) exportCriteria
            (some { recursive := true })).map Prod.snd =
          find (program 60 2 18 [sampleExport, sampleAlias]) exportCriteria
            (some { recursive := true }) ∧
        (∀ p m, subtreeAt (program 60 2 18 [sampleExport, sampleAlias]) p = some m →
          matchNode m exportCriteria = true →
          (p, m) ∈ findAt (program 60 2 18 [sampleExport, sampleAlias]) exportCriteria
              (some { recursive := true }) ∨
            ∃ r ∈ findAt (program 60 2 18 [sampleExport, sampleAlias]) exportCriteria
              (some { recursive := true }), r.1 <+: p ∧ r.1 ≠ p)) :=
  ⟨rfl, find_outermost_matches (program 60 2 18 [sampleExport, sampleAlias]) exportCriteria
    { recursive := true } rfl⟩

end ApiDocs

/-! ## Field access and the export statement -/

namespace ApiDocs

open Node

theorem lookup_mem (fields : List (String × Node)) (key : String) (v : Node)
    (h : fields.lookup key = some v) : v ∈ fields.map Prod.snd := by
  induction fields with
  | nil => simp at h
  | cons f rest ih =>
    obtain ⟨k, x⟩ := f
    rw [List.lookup_cons] at h
    cases hk : (key == k) with
    | true =>
      simp only [hk, Option.some.injEq] at h
      simp [h]
    | false =>
      simp only [hk] at h
      simp [ih h]

theorem field?_isObject (node : Node) (key : String) (v : Node)
    (h : field? node key = some v) : isObject node = true := by
  cases node <;> simp_all [field?, isObject]

theorem field?_mem (node : Node) (key : String) (v : Node)
    (h : field? node key = some v) : v ∈ values node := by
  cases node with
  | obj fields => exact lookup_mem fields key v h
  | _ => simp [field?] at h

theorem field?_get (node : Node) (key : String) (v : Node)
    (h : field? node key = some v) : get node key = .ok v := by
  cases node <;> simp_all [field?, get]

theorem get_cases (node : Node) (key : String) :
    get node key = .error .typeError ∨ ∃ v, get node key = .ok v := by
  cases node <;> simp [get]

theorem isString_eq (value : Option Node) (s : String) (h : isString value s = true) :
    value = some (str s) := by
  unfold isString at h
  split at h
  · simp only [beq_iff_eq] at h
    rw [h]
  · cases h

theorem field?_str_match (node : Node) (key s : String)
    (h : field? node key = some (str s)) :
    ∃ x ∈ values node, matchNode x (str s) = true :=
  ⟨str s, field?_mem node key _ h, by simp [matchNode, strictEq]⟩

theorem isIdentifier_match (node : Node) (name : String)
    (h : isIdentifier node name = true) :
    matchNode node (obj [("type", str "Identifier"), ("name", str name)]) = true := by
  simp only [isIdentifier, Bool.and_eq_true] at h
  have h1 := isString_eq _ _ h.1
  have h2 := isString_eq _ _ h.2
  rw [matchNode_obj_iff]
  refine ⟨field?_isObject _ _ _ h1, ?_⟩
  simp only [List.forall_mem_cons, List.not_mem_nil, false_imp_iff, implies_true, and_true]
  exact ⟨field?_str_match _ _ _ h1, field?_str_match _ _ _ h2⟩

theorem isModuleExports_match (node : Node) (h : isModuleExports node = true) :
    matchNode node (obj [("type", str "MemberExpression"),
      ("object", obj [("type", str "Identifier"), ("name", str "module")]),
      ("property", obj [("type", str "Identifier"), ("name", str "exports")])]) = true := by
  simp only [isModuleExports, Bool.and_eq_true] at h
  obtain ⟨⟨h1, h2⟩, h3⟩ := h
  have h1 := isString_eq _ _ h1
  rw [matchNode_obj_iff]
  refine ⟨field?_isObject _ _ _ h1, ?_⟩
  simp only [List.forall_mem_cons, List.not_mem_nil, false_imp_iff, implies_true, and_true]
  refine ⟨field?_str_match _ _ _ h1, ?_, ?_⟩
  · cases ho : field? node "object" with
    | none => simp [ho] at h2
    | some object =>
      simp only [ho] at h2
      exact ⟨object, field?_mem _ _ _ ho, isIdentifier_match _ _ h2⟩
  · cases hq : field? node "property" with
    | none => simp [hq] at h3
    | some property =>
      simp only [hq] at h3
      exact ⟨property, field?_mem _ _ _ hq, isIdentifier_match _ _ h3⟩

/-- An export statement satisfies `match` against the export criteria. -/
theorem isExportStatement_match (node : Node) (h : isExportStatement node = true) :
    matchNode node exportCriteria = true := by
  simp only [isExportStatement, Bool.and_eq_true] at h
  obtain ⟨h1, h2⟩ := h
  have h1 := isString_eq _ _ h1
  unfold exportCriteria
  rw [matchNode_obj_iff]
  refine ⟨field?_isObject _ _ _ h1, ?_⟩
  simp only [List.forall_mem_cons, List.not_mem_nil, false_imp_iff, implies_true, and_true]
  refine ⟨field?_str_match _ _ _ h1, ?_⟩
  cases he : field? node "expression" with
  | none => simp [he] at h2
  | some expression =>
    simp only [he, Bool.and_eq_true] at h2
    obtain ⟨h3, h4⟩ := h2
    have h3 := isString_eq _ _ h3
    refine ⟨expression, field?_mem _ _ _ he, ?_⟩
    rw [matchNode_obj_iff]
    refine ⟨field?_isObject _ _ _ h3, ?_⟩
    simp only [List.forall_mem_cons, List.not_mem_nil, false_imp_iff, implies_true, and_true]
    refine ⟨field?_str_match _ _ _ h3, ?_⟩
    cases hl : field? expression "left" with
    | none => simp [hl] at h4
    | some left =>
      simp only [hl] at h4
      exact ⟨left, field?_mem _ _ _ hl, isModuleExports_match _ h4⟩

end ApiDocs

/-! ## The extraction step: lemmas -/

namespace ApiDocs

open Node

theorem eq_singleton_of_pairwise {α : Type} (R : α → α → Prop) (l : List α) (a : α)
    (ha : a ∈ l) (hp : l.Pairwise R) (h1 : ∀ x ∈ l, ¬ R a x) (h2 : ∀ x ∈ l, ¬ R x a) :
    l = [a] := by
  cases l with
  | nil => simp at ha
  | cons x rest =>
    rw [List.pairwise_cons] at hp
    rcases List.mem_cons.1 ha with rfl | hmem
    · cases rest with
      | nil => rfl
      | cons y rest' => exact absurd (hp.1 y (by simp)) (h1 y (by simp))
    · exact absurd (hp.1 a hmem) (h2 x (by simp))

/-- With `options.recursive` set, if a node of the tree matches and every
matching node lies at or below it, the search returns exactly that node. -/
theorem find_eq_singleton (ast criteria stmt : Node) (o : Options) (p : List Nat)
    (ho : o.recursive = true) (hp : subtreeAt ast p = some stmt)
    (hm : matchNode stmt criteria = true)
    (hall : ∀ q m, subtreeAt ast q = some m → matchNode m criteria = true → p <+: q) :
    find ast criteria (some o) = [stmt] := by
  have hbelow : ∀ r ∈ findAt ast criteria (some o), p <+: r.1 := fun r hr =>
    hall r.1 r.2 (findAt_subtreeAt _ _ _ r hr) (findAt_match _ _ _ r hr)
  obtain ⟨r, hr, hpre⟩ := findAt_complete ast criteria o ho p stmt hp hm
  have hr1 : r.1 = p := (hpre.sublist.antisymm (hbelow r hr).sublist)
  have hr2 : r.2 = stmt := by
    have := findAt_subtreeAt _ _ _ r hr
    rw [hr1, hp] at this
    exact (Option.some.inj this).symm
  have hmem : (p, stmt) ∈ findAt ast criteria (some o) := by
    rw [← hr1, ← hr2]; exact hr
  have := eq_singleton_of_pairwise apart _ _ hmem (findAt_pairwise ast criteria o)
    (fun x hx hax => hax.1 (hbelow x hx)) (fun x hx hxa => hxa.2 (hbelow x hx))
  rw [← findAt_map_snd, this]
  rfl

/-- With `options.recursive` set, the search of a tree without a matching node
returns nothing. -/
theorem find_eq_nil (ast criteria : Node) (o : Options)
    (hall : ∀ q m, subtreeAt ast q = some m → matchNode m criteria = false) :
    find ast criteria (some o) = [] := by
  rw [← findAt_map_snd]
  cases h : findAt ast criteria (some o) with
  | nil => rfl
  | cons r rest =>
    have hr : r ∈ findAt ast criteria (some o) := by rw [h]; simp
    have h1 := hall r.1 r.2 (findAt_subtreeAt _ _ _ r hr)
    rw [findAt_match _ _ _ r hr] at h1
    cases h1

theorem lineOf_get (node line : Node) (h : lineOf node = some line) :
    ∃ loc start, get node "loc" = .ok loc ∧ get loc "start" = .ok start ∧
      get start "line" = .ok line ∧ isObject start = true := by
  unfold lineOf at h
  cases h1 : field? node "loc" with
  | none => simp [h1] at h
  | some loc =>
    cases h2 : field? loc "start" with
    | none => simp [h1, h2] at h
    | some start =>
      simp only [h1, h2, Option.some_bind] at h
      exact ⟨loc, start, field?_get _ _ _ h1, field?_get _ _ _ h2, field?_get _ _ _ h,
        field?_isObject _ _ _ h⟩

theorem get_of_isObject (node : Node) (key : String) (h : isObject node = true) :
    get node key = .ok ((field? node key).getD undefined) := by
  cases node <;> simp_all [get, isObject]

theorem truthy_of_isObject (node : Node) (h : isObject node = true) : truthy node = true := by
  cases node <;> simp_all [truthy, isObject]

/-- A node with location data whose type is one of `types` passes `assertType`. -/
theorem assertType_ok (node line : Node) (types : List String) (t filePath : String)
    (htype : field? node "type" = some (str t)) (ht : t ∈ types)
    (hline : lineOf node = some line) : assertType node types filePath = .ok () := by
  obtain ⟨loc, start, h1, h2, h3, h4⟩ := lineOf_get node line hline
  have h5 := get_of_isObject start "column" h4
  have h6 := truthy_of_isObject node (field?_isObject _ _ _ htype)
  unfold assertType
  simp only [bind, Except.bind, pure, Except.pure, h6, field?_get _ _ _ htype, h1, h2, h3, h5]
  simp [has, ht]

/-- A node with location data whose type is a string outside `types` fails `assertType`
with the type-mismatch message. -/
theorem assertType_mismatch (node line column : Node) (types : List String)
    (t filePath : String) (htype : field? node "type" = some (str t)) (ht : t ∉ types)
    (hline : lineOf node = some line) (hcolumn : columnOf node = some column) :
    assertType node types filePath =
      .error (.exit (debugFriendlyMessage
        ("Expected type [" ++ ",".intercalate types ++ "], found \"" ++ t
          ++ "\" at column \"" ++ jsToString column ++ "\"") filePath line)) := by
  obtain ⟨loc, start, h1, h2, h3, h4⟩ := lineOf_get node line hline
  have h5 : get start "column" = .ok column := by
    unfold columnOf at hcolumn
    have e1 : field? node "loc" = some loc := by
      cases hn : field? node "loc" with
      | none => simp [hn] at hcolumn
      | some l =>
        have := field?_get _ _ _ hn
        rw [h1] at this
        rw [Except.ok.inj this]
    have e2 : field? loc "start" = some start := by
      cases hn : field? loc "start" with
      | none => simp [e1, hn] at hcolumn
      | some l =>
        have := field?_get _ _ _ hn
        rw [h2] at this
        rw [Except.ok.inj this]
    simp only [e1, e2, Option.some_bind] at hcolumn
    exact field?_get _ _ _ hcolumn
  have h6 := truthy_of_isObject node (field?_isObject _ _ _ htype)
  unfold assertType
  simp only [bind, Except.bind, pure, Except.pure, h6, field?_get _ _ _ htype, h1, h2, h3, h5]
  simp [has, ht, fail, jsToString]

/-- The three ways in which `assertType` can end. -/
theorem assertType_cases (node : Node) (types : List String) (filePath : String) :
    assertType node types filePath = .ok () ∨
      assertType node types filePath = .error .typeError ∨
      ∃ m line, assertType node types filePath =
        .error (.exit (debugFriendlyMessage ("Expected type [" ++ m) filePath line)) := by
  unfold assertType
  simp only [bind, Except.bind, pure, Except.pure]
  by_cases ht : (! truthy node) = true
  · right; right
    simp only [ht, if_true, fail, String.append_assoc]
    exact ⟨_, _, rfl⟩
  · simp only [ht, if_false, Bool.false_eq_true]
    rcases get_cases node "type" with h | ⟨v, h⟩
    · simp [h]
    · rcases get_cases node "loc" with h1 | ⟨loc, h1⟩
      · simp [h, h1]
      · rcases get_cases loc "start" with h2 | ⟨start, h2⟩
        · simp [h, h1, h2]
        · rcases get_cases start "line" with h3 | ⟨line, h3⟩
          · simp [h, h1, h2, h3]
          · rcases get_cases start "column" with h4 | ⟨column, h4⟩
            · simp [h, h1, h2, h3, h4]
            · simp only [h, h1, h2, h3, h4]
              by_cases hh : (! has types v) = true
              · right; right
                simp only [hh, if_true, fail, String.append_assoc]
                exact ⟨_, _, rfl⟩
              · left
                simp only [hh, if_false, Bool.false_eq_true]

/-- The message of the export count differs from every type-mismatch message. -/
theorem cardinality_message_ne (n : Nat) (m filePath : String) (line : Node) :
    debugFriendlyMessage ("Expected 1 export, found " ++ toString n) filePath undefined ≠
      debugFriendlyMessage ("Expected type [" ++ m) filePath line := by
  intro h
  unfold debugFriendlyMessage at h
  have hu : truthy undefined = false := rfl
  by_cases hf : truthy (str filePath) = true
  · by_cases hl : truthy line = true
    · simp only [hf, hl, hu, if_true, if_false, Bool.false_eq_true] at h
      have h2 := congrArg String.data h
      simp only [String.data_append, List.append_assoc] at h2
      have h3 := List.append_cancel_left (List.append_cancel_left h2)
      simp at h3
    · simp only [hf, hl, hu, if_true, if_false, Bool.false_eq_true] at h
      have h2 := congrArg String.data h
      simp only [String.data_append, List.append_assoc] at h2
      have h3 := List.append_cancel_left (List.append_cancel_left h2)
      simp at h3
  · simp only [hf, if_false, Bool.false_eq_true] at h
    have h2 := congrArg String.data h
    simp only [String.data_append, List.append_assoc] at h2
    simp at h2

end ApiDocs

/-! ## The extraction step `findExportedFunction`: results -/

namespace ApiDocs

open Node

theorem findExportedFunction_of_singleton (ast stmt fn : Node) (filePath : String)
    (h : exported ast = [stmt]) (hr : rightOf stmt = some fn) :
    findExportedFunction ast filePath =
      match assertType fn FUNCTION_EXPRESSION_TYPES filePath with
      | .error err => .error err
      | .ok _ => get fn "body" := by
  unfold rightOf at hr
  cases he : field? stmt "expression" with
  | none => simp [he] at hr
  | some expression =>
    simp only [he, Option.some_bind] at hr
    unfold findExportedFunction
    simp only [bind, Except.bind, pure, Except.pure, h, List.length_singleton, bne_self_eq_false,
      Bool.false_eq_true, if_false, List.getD_cons_zero, field?_get _ _ _ he,
      field?_get _ _ _ hr]
    cases assertType fn FUNCTION_EXPRESSION_TYPES filePath <;> rfl

theorem findExportedFunction_of_length_ne (ast : Node) (filePath : String)
    (h : (exported ast).length ≠ 1) :
    findExportedFunction ast filePath =
      .error (.exit (debugFriendlyMessage
        ("Expected 1 export, found " ++ toString (exported ast).length) filePath undefined)) := by
  unfold findExportedFunction
  simp [bind, Except.bind, h, fail]

theorem matchNode_str_eq (node : Node) (s : String) (h : matchNode node (str s) = true) :
    node = str s := by
  cases node <;> simp_all [matchNode, strictEq, isObject]

/-- A node that satisfies `match` against the export criteria has a field value or
an element equal to the string `ExpressionStatement`. -/
theorem match_export_type (node : Node) (h : matchNode node exportCriteria = true) :
    str "ExpressionStatement" ∈ values node := by
  unfold exportCriteria at h
  obtain ⟨x, hx, hm⟩ := ((matchNode_obj_iff node _).1 h).2 ("type", str "ExpressionStatement")
    (by simp)
  rw [← matchNode_str_eq x _ hm]
  exact hx

theorem find_export_no_type (node : Node) (o : Options)
    (h : str "ExpressionStatement" ∉ values node) :
    find node exportCriteria (some o) =
      if descends node o then (values node).flatMap (fun x => find x exportCriteria (some o))
      else [] := by
  rw [find_some]
  have : matchNode node exportCriteria = false := by
    cases hm : matchNode node exportCriteria
    · rfl
    · exact absurd (match_export_type node hm) h
  simp [this]

/-- The search of a parsed file whose statements are two export statements
returns these two statements. -/
theorem exported_program_two (stop endLine endColumn : Int) (s1 s2 : Node)
    (h1 : isExportStatement s1 = true) (h2 : isExportStatement s2 = true) :
    exported (program stop endLine endColumn [s1, s2]) = [s1, s2] := by
  have m1 := isExportStatement_match s1 h1
  have m2 := isExportStatement_match s2 h2
  have o1 : str "ExpressionStatement" ≠ s1 := by
    intro e
    rw [← e] at m1
    exact absurd m1 (by decide)
  have o2 : str "ExpressionStatement" ≠ s2 := by
    intro e
    rw [← e] at m2
    exact absurd m2 (by decide)
  have f1 : find s1 exportCriteria (some { recursive := true }) = [s1] := by
    rw [find_eq]; simp [m1]
  have f2 : find s2 exportCriteria (some { recursive := true }) = [s2] := by
    rw [find_eq]; simp [m2]
  have leaf : ∀ a : Int, find (num a) exportCriteria (some { recursive := true }) = [] := by
    intro a
    rw [find_export_no_type _ _ (by simp [values])]
    simp [descends, isObject, isArray]
  have leafs : ∀ t : String, t ≠ "ExpressionStatement" →
      find (str t) exportCriteria (some { recursive := true }) = [] := by
    intro t _
    rw [find_export_no_type _ _ (by simp [values])]
    simp [descends, isObject, isArray]
  have point : ∀ a b : Int,
      find (obj [("line", num a), ("column", num b)]) exportCriteria
        (some { recursive := true }) = [] := by
    intro a b
    rw [find_export_no_type _ _ (by simp [values])]
    simp [descends, isObject, isArray, values, leaf]
  have loc : ∀ a b c d : Int,
      find (obj [("start", obj [("line", num a), ("column", num b)]),
        ("end", obj [("line", num c), ("column", num d)])]) exportCriteria
        (some { recursive := true }) = [] := by
    intro a b c d
    rw [find_export_no_type _ _ (by simp [values])]
    simp [descends, isObject, isArray, values, point]
  have body : find (arr [s1, s2]) exportCriteria (some { recursive := true }) = [s1, s2] := by
    rw [find_export_no_type _ _ (by simp [values, o1, o2])]
    simp [descends, isObject, isArray, values, f1, f2]
  unfold exported program astNode
  rw [find_export_no_type _ _ (by simp [values])]
  simp [descends, isObject, isArray, values, leaf, leafs, loc, body]

/-- When the search returns one node, `findExportedFunction` returns a value, throws
a `TypeError`, or fails with a type-mismatch message. -/
theorem findExportedFunction_length_one (ast : Node) (filePath : String)
    (h : (exported ast).length = 1) :
    (∃ body, findExportedFunction ast filePath = .ok body) ∨
      findExportedFunction ast filePath = .error .typeError ∨
      ∃ m line, findExportedFunction ast filePath =
        .error (.exit (debugFriendlyMessage ("Expected type [" ++ m) filePath line)) := by
  unfold findExportedFunction
  simp only [bind, Except.bind, pure, Except.pure, h, bne_self_eq_false, Bool.false_eq_true,
    if_false]
  generalize (exported ast).getD 0 undefined = first
  rcases get_cases first "expression" with h1 | ⟨e, h1⟩
  · simp [h1]
  · rcases get_cases e "right" with h2 | ⟨fn, h2⟩
    · simp [h1, h2]
    · simp only [h1, h2]
      rcases assertType_cases fn FUNCTION_EXPRESSION_TYPES filePath with h3 | h3 | ⟨m, line, h3⟩
      · rcases get_cases fn "body" with h4 | ⟨body, h4⟩
        · simp [h3, h4]
        · simp [h3, h4]
      · simp [h3]
      · right; right
        exact ⟨m, line, by simp [h3]⟩

/-- C8 as stated fails: the file
`module.exports = function () \x7b return [] \x7d` / `x = module.exports`
contains exactly one expression statement assigning to `module.exports`, its
right-hand side is a function, and `findExportedFunction` fails with
`Expected 1 export, found 2`: the second statement satisfies `match` too,
because its field `right` matches the criteria field `left`. -/
theorem findExportedFunction_other_statements_counterexample :
    ¬ (∀ (ast stmt fn body line : Node) (p : List Nat) (t filePath : String),
        exportStatements ast = [(p, stmt)] → rightOf stmt = some fn →
        field? fn "type" = some (str t) → t ∈ FUNCTION_EXPRESSION_TYPES →
        lineOf fn = some line → field? fn "body" = some body →
        findExportedFunction ast filePath = .ok body) := by
  intro h
  have h1 := h (program 60 2 18 [sampleExport, sampleAlias]) sampleExport sampleFunction
    sampleBody (num 1) [4, 0] "FunctionExpression" "lib/routes/account.js"
    rfl rfl rfl (by decide) rfl rfl
  have h2 : findExportedFunction (program 60 2 18 [sampleExport, sampleAlias])
      "lib/routes/account.js" =
      .error (.exit "Error parsing \"lib/routes/account.js\":\nExpected 1 export, found 2") :=
    rfl
  rw [h2] at h1
  cases h1

/-- C8, amended: if a file tree contains exactly one expression statement whose
expression is an assignment with left-hand side `module.exports`, the
right-hand side of that statement is a `FunctionExpression` or an
`ArrowFunctionExpression` carrying location data, and every node of the tree
that satisfies `match` against the export criteria is that statement or lies
inside it, then `findExportedFunction` succeeds and returns the body of that
function. -/
theorem findExportedFunction_ok (ast stmt fn body line : Node) (p : List Nat)
    (t filePath : String)
    (hone : exportStatements ast = [(p, stmt)]) (hright : rightOf stmt = some fn)
    (htype : field? fn "type" = some (str t)) (ht : t ∈ FUNCTION_EXPRESSION_TYPES)
    (hline : lineOf fn = some line) (hbody : field? fn "body" = some body)
    (hall : ∀ q m, subtreeAt ast q = some m → matchNode m exportCriteria = true → p <+: q) :
    findExportedFunction ast filePath = .ok body := by
  have hmem : (p, stmt) ∈ exportStatements ast := by rw [hone]; simp
  unfold exportStatements at hmem
  rw [List.mem_filter] at hmem
  have hp : subtreeAt ast p = some stmt := (mem_preorderAt ast (p, stmt)).1 hmem.1
  have hm : matchNode stmt exportCriteria = true := isExportStatement_match stmt hmem.2
  have hfind : exported ast = [stmt] :=
    find_eq_singleton ast exportCriteria stmt { recursive := true } p rfl hp hm hall
  rw [findExportedFunction_of_singleton ast stmt fn filePath hfind hright,
    assertType_ok fn line _ t filePath htype ht hline]
  exact field?_get _ _ _ hbody

theorem findExportedFunction_ok_witness :
    exportStatements (program 41 1 41 [sampleExport]) = [([4, 0], sampleExport)] ∧
      rightOf sampleExport = some sampleFunction ∧
      lineOf sampleFunction = some (num 1) ∧
      findExportedFunction (program 41 1 41 [sampleExport]) "lib/routes/account.js" =
        .ok sampleBody :=
  ⟨rfl, rfl, rfl,
    findExportedFunction_ok (program 41 1 41 [sampleExport]) sampleExport sampleFunction
      sampleBody (num 1) [4, 0] "FunctionExpression" "lib/routes/account.js"
      rfl rfl rfl (by decide) rfl rfl
      (by
        intro q m hq hm
        have key : (preorderAt (program 41 1 41 [sampleExport])).all
            (fun r => ! matchNode r.2 exportCriteria || [4, 0].isPrefixOf r.1) = true := by
          decide
        have h1 := List.all_eq_true.1 key (q, m)
          ((mem_preorderAt (program 41 1 41 [sampleExport]) (q, m)).2 hq)
        simp only [hm, Bool.not_true, Bool.false_or] at h1
        exact List.isPrefixOf_iff_prefix.1 h1)⟩

/-- C9, amended: with `N` the number of nodes that the recursive search with the
export criteria returns (the outermost nodes of the file that satisfy `match`,
which pairs a criteria field with node fields of any name), `findExportedFunction`
fails with the message `Expected 1 export, found N` exactly when `N` is not 1; for a
non-empty file path the printed text is that message after
`Error parsing "<file path>":`; a file in which no node satisfies `match` against
the export criteria fails with `found 0`, and a file whose statements are two
assignments to `module.exports` fails with `found 2`. -/
theorem findExportedFunction_cardinality (ast : Node) (filePath : String) :
    (findExportedFunction ast filePath =
        .error (.exit (debugFriendlyMessage
          ("Expected 1 export, found " ++ toString (exported ast).length) filePath undefined)) ↔
      (exported ast).length ≠ 1) ∧
    (filePath ≠ "" →
      debugFriendlyMessage
          ("Expected 1 export, found " ++ toString (exported ast).length) filePath undefined =
        "Error parsing \"" ++ filePath ++ "\":\n" ++ "Expected 1 export, found "
          ++ toString (exported ast).length) ∧
    ((∀ p m, subtreeAt ast p = some m → matchNode m exportCriteria = false) →
      findExportedFunction ast filePath =
        .error (.exit (debugFriendlyMessage "Expected 1 export, found 0" filePath undefined))) ∧
    (∀ (stop endLine endColumn : Int) (s1 s2 : Node),
      isExportStatement s1 = true → isExportStatement s2 = true →
      findExportedFunction (program stop endLine endColumn [s1, s2]) filePath =
        .error (.exit (debugFriendlyMessage "Expected 1 export, found 2" filePath undefined))) := by
  refine ⟨⟨?_, findExportedFunction_of_length_ne ast filePath⟩, ?_, ?_, ?_⟩
  · intro h hlen
    rcases findExportedFunction_length_one ast filePath hlen with ⟨b, h1⟩ | h1 | ⟨m, line, h1⟩
    · rw [h1] at h
      cases h
    · rw [h1] at h
      cases h
    · rw [h1] at h
      have h2 : debugFriendlyMessage ("Expected type [" ++ m) filePath line =
          debugFriendlyMessage ("Expected 1 export, found " ++ toString (exported ast).length)
            filePath undefined := by
        injection h with h
        injection h
      exact cardinality_message_ne _ _ _ _ h2.symm
  · intro hfp
    have hf : truthy (str filePath) = true := by simp [truthy, hfp]
    have hu : truthy undefined = false := rfl
    simp only [debugFriendlyMessage, hf, hu, if_true, if_false, Bool.false_eq_true]
    apply String.ext
    simp [String.data_append]
  · intro hall
    have h0 : exported ast = [] := find_eq_nil ast exportCriteria _ hall
    have h1 := findExportedFunction_of_length_ne ast filePath (by rw [h0]; decide)
    rw [h0] at h1
    exact h1
  · intro stop endLine endColumn s1 s2 h1 h2
    have h0 := exported_program_two stop endLine endColumn s1 s2 h1 h2
    have h3 := findExportedFunction_of_length_ne (program stop endLine endColumn [s1, s2])
      filePath (by rw [h0]; simp)
    rw [h0] at h3
    have e : "Expected 1 export, found " ++ toString ([s1, s2].length) =
        "Expected 1 export, found 2" := by
      simp only [List.length_cons, List.length_nil]
      rfl
    rw [e] at h3
    exact h3

/-- If the search returns exactly one statement and the right-hand side of that
statement is a node of a type `t` other than `FunctionExpression` and
`ArrowFunctionExpression`, starting at line `line` and column `column`, then
`findExportedFunction` fails, for a non-empty file path and a line number other
than 0 (lines are counted from 1), with the text
`Error parsing "<file path>" at line <line>:` followed by
`Expected type [FunctionExpression,ArrowFunctionExpression], found "<t>" at column "<column>"`. -/
theorem findExportedFunction_type_mismatch (ast stmt rhs column : Node) (t filePath : String)
    (line : Int)
    (hone : exported ast = [stmt]) (hright : rightOf stmt = some rhs)
    (htype : field? rhs "type" = some (str t)) (ht : t ∉ FUNCTION_EXPRESSION_TYPES)
    (hline : lineOf rhs = some (num line)) (hl : line ≠ 0)
    (hcolumn : columnOf rhs = some column) (hfp : filePath ≠ "") :
    findExportedFunction ast filePath =
      .error (.exit ("Error parsing \"" ++ filePath ++ "\" at line " ++ toString line ++ ":\n"
        ++ "Expected type [FunctionExpression,ArrowFunctionExpression], found \"" ++ t
        ++ "\" at column \"" ++ jsToString column ++ "\"")) := by
  rw [findExportedFunction_of_singleton ast stmt rhs filePath hone hright,
    assertType_mismatch rhs (num line) column _ t filePath htype ht hline hcolumn]
  have hj : ",".intercalate FUNCTION_EXPRESSION_TYPES =
      "FunctionExpression,ArrowFunctionExpression" := by decide
  have hf : truthy (str filePath) = true := by simp [truthy, hfp]
  have hn : truthy (num line) = true := by simp [truthy, hl]
  simp only [debugFriendlyMessage, hf, hn, hj, if_true, jsToString]
  congr 2
  apply String.ext
  simp [String.data_append]

theorem findExportedFunction_type_mismatch_witness :
    exported (program 19 1 19 [sampleObjectExport]) = [sampleObjectExport] ∧
      "ObjectExpression" ∉ FUNCTION_EXPRESSION_TYPES ∧
      findExportedFunction (program 19 1 19 [sampleObjectExport]) "lib/routes/account.js" =
        .error (.exit ("Error parsing \"" ++ "lib/routes/account.js" ++ "\" at line "
          ++ toString (1 : Int) ++ ":\n"
          ++ "Expected type [FunctionExpression,ArrowFunctionExpression], found \""
          ++ "ObjectExpression" ++ "\" at column \"" ++ jsToString (num 17) ++ "\"")) :=
  ⟨rfl, by decide,
    findExportedFunction_type_mismatch (program 19 1 19 [sampleObjectExport])
      sampleObjectExport (astNode "ObjectExpression" 17 19 1 17 1 19 [("properties", arr [])])
      (num 17) "ObjectExpression" "lib/routes/account.js" 1
      rfl rfl rfl (by decide) rfl (by decide) rfl (by decide)⟩

end ApiDocs

/-! ## The extraction step `findReturnedData`: lemmas -/

namespace ApiDocs

open Node

/-- On a block, `findReturnedData` checks the number of return statements found
and continues with the argument of the first one. -/
theorem findReturnedData_block (functionNode body : Node) (filePath : String)
    (htype : field? functionNode "type" = some (str "BlockStatement"))
    (hbody : field? functionNode "body" = some body) :
    findReturnedData functionNode filePath =
      if (returned body).length ≠ 1 then
        .error (.exit (debugFriendlyMessage
          ("Expected 1 return statement, found " ++ toString (returned body).length)
          filePath undefined))
      else
        match get ((returned body).getD 0 undefined) "argument" with
        | .error err => .error err
        | .ok returnedData => resolveReturnedData functionNode returnedData filePath := by
  have hs : strictEq (str "BlockStatement") (str "BlockStatement") = true := by
    simp [strictEq]
  unfold findReturnedData resolveReturnedData
  simp only [bind, Except.bind, pure, Except.pure, field?_get _ _ _ htype,
    field?_get _ _ _ hbody, hs, if_true]
  by_cases hlen : (returned body).length = 1
  · simp only [hlen, bne_self_eq_false, Bool.false_eq_true, if_false, ne_eq, not_true_eq_false]
    generalize (returned body).getD 0 undefined = first
    cases get first "argument" <;> rfl
  · have hb : ((returned body).length != 1) = true := by simpa using hlen
    simp only [hb, if_true, ne_eq, hlen, not_false_eq_true, fail]

/-- On a node that is not a block, `findReturnedData` fails in `assertType`, which
is applied to the unassigned variable `returnedData`. -/
theorem findReturnedData_not_block (functionNode type : Node) (filePath : String)
    (htype : get functionNode "type" = .ok type)
    (hne : strictEq type (str "BlockStatement") = false) :
    findReturnedData functionNode filePath =
      .error (.exit (debugFriendlyMessage "Expected type [ReturnStatement], found nothing"
        filePath undefined)) := by
  unfold findReturnedData
  simp only [bind, Except.bind, pure, Except.pure, htype, hne, Bool.false_eq_true, if_false]
  have h : assertType undefined RETURN_TYPES filePath =
      .error (.exit (debugFriendlyMessage "Expected type [ReturnStatement], found nothing"
        filePath undefined)) := by
    unfold assertType
    simp only [bind, Except.bind, truthy, Bool.not_false, if_true, fail]
    rfl
  rw [h]

/-- A returned expression that is an array literal with location data is accepted:
the result is its `elements`. -/
theorem resolveReturnedData_array (functionNode returnedData line elements : Node)
    (filePath : String)
    (htype : field? returnedData "type" = some (str "ArrayExpression"))
    (hline : lineOf returnedData = some line)
    (helements : field? returnedData "elements" = some elements) :
    resolveReturnedData functionNode returnedData filePath = .ok elements := by
  have hs : strictEq (str "ArrayExpression") (str "Identifier") = false := by decide
  unfold resolveReturnedData
  simp only [bind, Except.bind, pure, Except.pure, field?_get _ _ _ htype, hs,
    Bool.false_eq_true, if_false,
    assertType_ok returnedData line ROUTE_DEFINITION_TYPES "ArrayExpression" filePath htype
      (by decide) hline,
    field?_get _ _ _ helements]

/-- A returned expression that is an identifier is replaced by the initializer of
the declarator found, when exactly one is found. -/
theorem resolveReturnedData_identifier (functionNode returnedData name : Node)
    (filePath : String)
    (htype : field? returnedData "type" = some (str "Identifier"))
    (hname : get returnedData "name" = .ok name) :
    resolveReturnedData functionNode returnedData filePath =
      if (routeDefinitions functionNode name).length ≠ 1 then
        .error (.exit (debugFriendlyMessage
          ("Expected 1 set of route definitions, found "
            ++ toString (routeDefinitions functionNode name).length) filePath undefined))
      else
        match get ((routeDefinitions functionNode name).getD 0 undefined) "init" with
        | .error err => .error err
        | .ok init =>
          match assertType init ROUTE_DEFINITION_TYPES filePath with
          | .error err => .error err
          | .ok _ => get init "elements" := by
  have hs : strictEq (str "Identifier") (str "Identifier") = true := by simp [strictEq]
  unfold resolveReturnedData
  simp only [bind, Except.bind, pure, Except.pure, field?_get _ _ _ htype, hs, if_true, hname]
  by_cases hlen : (routeDefinitions functionNode name).length = 1
  · simp only [hlen, bne_self_eq_false, Bool.false_eq_true, if_false, ne_eq, not_true_eq_false]
    generalize (routeDefinitions functionNode name).getD 0 undefined = first
    cases get first "init" with
    | error e => rfl
    | ok init =>
      dsimp only
      cases assertType init ROUTE_DEFINITION_TYPES filePath <;> rfl
  · have hb : ((routeDefinitions functionNode name).length != 1) = true := by simpa using hlen
    simp only [hb, if_true, ne_eq, hlen, not_false_eq_true, fail]

/-- The ways in which the second half of `findReturnedData` can end. -/
theorem resolveReturnedData_cases (functionNode returnedData : Node) (filePath : String) :
    (∃ v, resolveReturnedData functionNode returnedData filePath = .ok v) ∨
      resolveReturnedData functionNode returnedData filePath = .error .typeError ∨
      (∃ n : Nat, resolveReturnedData functionNode returnedData filePath =
        .error (.exit (debugFriendlyMessage
          ("Expected 1 set of route definitions, found " ++ toString n) filePath undefined))) ∨
      ∃ m line, resolveReturnedData functionNode returnedData filePath =
        .error (.exit (debugFriendlyMessage ("Expected type [" ++ m) filePath line)) := by
  unfold resolveReturnedData
  simp only [bind, Except.bind, pure, Except.pure]
  rcases get_cases returnedData "type" with h | ⟨t, h⟩
  · simp [h]
  · simp only [h]
    by_cases hid : strictEq t (str "Identifier") = true
    · simp only [hid, if_true]
      rcases get_cases returnedData "name" with h1 | ⟨name, h1⟩
      · simp [h1]
      · simp only [h1]
        by_cases hlen : ((routeDefinitions functionNode name).length != 1) = true
        · right; right; left
          simp only [hlen, if_true, fail]
          exact ⟨_, rfl⟩
        · simp only [hlen, if_false, Bool.false_eq_true]
          generalize (routeDefinitions functionNode name).getD 0 undefined = first
          rcases get_cases first "init" with h2 | ⟨init, h2⟩
          · simp [h2]
          · simp only [h2]
            rcases assertType_cases init ROUTE_DEFINITION_TYPES filePath with
              h3 | h3 | ⟨m, line, h3⟩
            · rcases get_cases init "elements" with h4 | ⟨w, h4⟩
              · simp [h3, h4]
              · simp [h3, h4]
            · simp [h3]
            · right; right; right
              exact ⟨m, line, by simp [h3]⟩
    · simp only [hid, if_false, Bool.false_eq_true]
      rcases assertType_cases returnedData ROUTE_DEFINITION_TYPES filePath with
        h3 | h3 | ⟨m, line, h3⟩
      · rcases get_cases returnedData "elements" with h4 | ⟨w, h4⟩
        · simp [h3, h4]
        · simp [h3, h4]
      · simp [h3]
      · right; right; right
        exact ⟨m, line, by simp [h3]⟩

end ApiDocs

/-! ## The extraction step `findReturnedData`: results -/

namespace ApiDocs

open Node

theorem debugFriendlyMessage_inj (a b filePath : String) (line : Node)
    (h : debugFriendlyMessage a filePath line = debugFriendlyMessage b filePath line) :
    a = b := by
  unfold debugFriendlyMessage at h
  by_cases hf : truthy (str filePath) = true
  · simp only [hf, if_true] at h
    have h2 := congrArg String.data h
    simp only [String.data_append] at h2
    exact String.ext (List.append_cancel_left h2)
  · simpa [hf] using h

/-- A message of one of the three counts differs from every type-mismatch message. -/
theorem expected_one_ne_type (r m filePath : String) (line : Node) :
    debugFriendlyMessage ("Expected 1 " ++ r) filePath undefined ≠
      debugFriendlyMessage ("Expected type [" ++ m) filePath line := by
  intro h
  unfold debugFriendlyMessage at h
  have hu : truthy undefined = false := rfl
  by_cases hf : truthy (str filePath) = true
  · by_cases hl : truthy line = true
    · simp only [hf, hl, hu, if_true, if_false, Bool.false_eq_true] at h
      have h2 := congrArg String.data h
      simp only [String.data_append, List.append_assoc] at h2
      have h3 := List.append_cancel_left (List.append_cancel_left h2)
      simp at h3
    · simp only [hf, hl, hu, if_true, if_false, Bool.false_eq_true] at h
      have h2 := congrArg String.data h
      simp only [String.data_append, List.append_assoc] at h2
      have h3 := List.append_cancel_left (List.append_cancel_left h2)
      simp at h3
  · simp only [hf, if_false, Bool.false_eq_true] at h
    have h2 := congrArg String.data h
    simp only [String.data_append, List.append_assoc] at h2
    simp at h2

theorem return_message_eq (x : String) :
    "Expected 1 return statement, found " ++ x =
      "Expected 1 " ++ ("return statement, found " ++ x) := by
  apply String.ext
  simp [String.data_append]

theorem routes_message_eq (x : String) :
    "Expected 1 set of route definitions, found " ++ x =
      "Expected 1 " ++ ("set of route definitions, found " ++ x) := by
  apply String.ext
  simp [String.data_append]

theorem return_message_ne_routes (x y : String) :
    "Expected 1 return statement, found " ++ x ≠
      "Expected 1 set of route definitions, found " ++ y := by
  intro h
  have h2 := congrArg String.data h
  simp only [String.data_append] at h2
  simp at h2

theorem isArray_of_isRecord (node : Node) (h : isRecord node = true) : isArray node = false := by
  cases node <;> simp_all [isRecord, isArray, isObject]

theorem isObject_of_isRecord (node : Node) (h : isRecord node = true) :
    isObject node = true := by
  cases node <;> simp_all [isRecord, isArray, isObject]

/-- A node satisfies `match` against the return criteria exactly when it is an
object one of whose values is the string `ReturnStatement`. -/
theorem matchNode_returnCriteria (node : Node) :
    matchNode node returnCriteria = true ↔
      isObject node = true ∧ str "ReturnStatement" ∈ values node := by
  unfold returnCriteria
  rw [matchNode_obj_iff]
  simp only [List.forall_mem_cons, List.not_mem_nil, false_imp_iff, implies_true, and_true]
  constructor
  · rintro ⟨ho, x, hx, hm⟩
    rw [matchNode_str_eq x _ hm] at hx
    exact ⟨ho, hx⟩
  · rintro ⟨ho, hx⟩
    exact ⟨ho, _, hx, by simp [matchNode, strictEq]⟩

/-- The search for return statements in a list of statement nodes returns the
direct elements of the list that satisfy `match`, and nothing below them. -/
theorem returned_eq_filter (stmts : List Node) (hrec : ∀ s ∈ stmts, isRecord s = true) :
    returned (arr stmts) = stmts.filter (fun s => matchNode s returnCriteria) := by
  have hno : matchNode (arr stmts) returnCriteria = false := by
    cases hm : matchNode (arr stmts) returnCriteria
    · rfl
    · have h1 := ((matchNode_returnCriteria _).1 hm).2
      have h2 := hrec _ h1
      simp [isRecord, isObject] at h2
  have hd : descends (arr stmts) { array := true } = true := by
    simp [descends, isArray]
  unfold returned
  rw [find_some]
  simp only [hno, hd, if_true, Bool.false_eq_true, if_false, values]
  clear hno hd
  induction stmts with
  | nil => rfl
  | cons s rest ih =>
    have hs : descends s { array := true } = false := by
      simp [descends, isArray_of_isRecord s (hrec s (by simp))]
    rw [List.flatMap_cons, ih (fun x hx => hrec x (by simp [hx])), find_some,
      List.filter_cons]
    by_cases hm : matchNode s returnCriteria = true <;> simp [hm, hs]

theorem isReturnStatement_match (node : Node) (h : isReturnStatement node = true) :
    matchNode node returnCriteria = true := by
  have h1 := isString_eq _ _ h
  exact (matchNode_returnCriteria node).2 ⟨field?_isObject _ _ _ h1, field?_mem _ _ _ h1⟩

/-- When the search for return statements returns one node, `findReturnedData` does
not fail with the message of the return count. -/
theorem findReturnedData_one_return (functionNode body : Node) (filePath : String) (n : Nat)
    (htype : field? functionNode "type" = some (str "BlockStatement"))
    (hbody : field? functionNode "body" = some body)
    (hlen : (returned body).length = 1) :
    findReturnedData functionNode filePath ≠
      .error (.exit (debugFriendlyMessage
        ("Expected 1 return statement, found " ++ toString n) filePath undefined)) := by
  intro h
  rw [findReturnedData_block functionNode body filePath htype hbody] at h
  simp only [hlen, ne_eq, not_true_eq_false, if_false] at h
  generalize (returned body).getD 0 undefined = first at h
  rcases get_cases first "argument" with h1 | ⟨rd, h1⟩
  · rw [h1] at h
    cases h
  · rw [h1] at h
    simp only at h
    rcases resolveReturnedData_cases functionNode rd filePath with
      ⟨v, h2⟩ | h2 | ⟨k, h2⟩ | ⟨m, line, h2⟩
    · rw [h2] at h
      cases h
    · rw [h2] at h
      cases h
    · rw [h2] at h
      injection h with h
      injection h with h
      exact return_message_ne_routes _ _ (debugFriendlyMessage_inj _ _ _ _ h).symm
    · rw [h2] at h
      injection h with h
      injection h with h
      rw [return_message_eq] at h
      exact expected_one_ne_type _ _ _ _ h.symm

/-- C11: on a block whose statement list consists of statement nodes, the search
for return statements returns exactly the direct elements of the list that
satisfy `match` against the return criteria (nothing nested in them); every
direct statement of type `ReturnStatement` is among them, and they are exactly
the statements of that type when the string `ReturnStatement` occurs among the
own field values of a statement only as its type.  With `N` the number of
statements found, `findReturnedData` fails with `Expected 1 return statement, found N`
exactly when `N` is not 1; with two it is `found 2`. -/
theorem findReturnedData_return_count (functionNode : Node) (stmts : List Node)
    (filePath : String)
    (htype : field? functionNode "type" = some (str "BlockStatement"))
    (hbody : field? functionNode "body" = some (arr stmts))
    (hrec : ∀ s ∈ stmts, isRecord s = true) :
    returned (arr stmts) = stmts.filter (fun s => matchNode s returnCriteria) ∧
    (∀ s, isReturnStatement s = true → matchNode s returnCriteria = true) ∧
    ((∀ s ∈ stmts, str "ReturnStatement" ∈ values s → isReturnStatement s = true) →
      returned (arr stmts) = stmts.filter isReturnStatement) ∧
    (findReturnedData functionNode filePath =
        .error (.exit (debugFriendlyMessage
          ("Expected 1 return statement, found " ++ toString (returned (arr stmts)).length)
          filePath undefined)) ↔
      (returned (arr stmts)).length ≠ 1) ∧
    ((returned (arr stmts)).length = 2 →
      findReturnedData functionNode filePath =
        .error (.exit (debugFriendlyMessage "Expected 1 return statement, found 2"
          filePath undefined))) := by
  have hfail : (returned (arr stmts)).length ≠ 1 →
      findReturnedData functionNode filePath =
        .error (.exit (debugFriendlyMessage
          ("Expected 1 return statement, found " ++ toString (returned (arr stmts)).length)
          filePath undefined)) := by
    intro hlen
    rw [findReturnedData_block functionNode (arr stmts) filePath htype hbody]
    simp [hlen]
  refine ⟨returned_eq_filter stmts hrec, isReturnStatement_match, ?_, ⟨?_, hfail⟩, ?_⟩
  · intro htag
    rw [returned_eq_filter stmts hrec]
    apply List.filter_congr
    intro s hs
    cases hr : isReturnStatement s
    · cases hm : matchNode s returnCriteria
      · rfl
      · have := htag s hs ((matchNode_returnCriteria s).1 hm).2
        rw [hr] at this
        cases this
    · exact isReturnStatement_match s hr
  · intro h hlen
    exact findReturnedData_one_return functionNode (arr stmts) filePath _ htype hbody hlen h
  · intro h2
    have := hfail (by rw [h2]; decide)
    rw [h2] at this
    exact this

theorem findReturnedData_return_count_witness :
    field? nestedReturnBody "type" = some (str "BlockStatement") ∧
      returned (arr nestedReturnStatements) =
        nestedReturnStatements.filter (fun s => matchNode s returnCriteria) ∧
      (returned (arr nestedReturnStatements)).length = 1 :=
  ⟨rfl,
    (findReturnedData_return_count nestedReturnBody nestedReturnStatements
      "lib/routes/account.js" rfl rfl (by decide)).1,
    by decide⟩

/-- C14: on a block whose statement list contains exactly one statement found
by the search for return statements, the argument of that statement being an
array literal with location data, `findReturnedData` returns the `elements` of
that array literal: the same sequence, in literal order. -/
theorem findReturnedData_inline_array (functionNode ret array line : Node)
    (stmts elements : List Node) (filePath : String)
    (htype : field? functionNode "type" = some (str "BlockStatement"))
    (hbody : field? functionNode "body" = some (arr stmts))
    (hrec : ∀ s ∈ stmts, isRecord s = true)
    (hone : stmts.filter (fun s => matchNode s returnCriteria) = [ret])
    (harg : field? ret "argument" = some array)
    (harray : field? array "type" = some (str "ArrayExpression"))
    (hline : lineOf array = some line)
    (helements : field? array "elements" = some (arr elements)) :
    findReturnedData functionNode filePath = .ok (arr elements) := by
  have hret : returned (arr stmts) = [ret] := by rw [returned_eq_filter stmts hrec, hone]
  rw [findReturnedData_block functionNode (arr stmts) filePath htype hbody, hret]
  simp only [List.length_singleton, ne_eq, not_true_eq_false, if_false, List.getD_cons_zero,
    field?_get _ _ _ harg]
  exact resolveReturnedData_array functionNode array line (arr elements) filePath harray hline
    helements

theorem findReturnedData_inline_array_witness :
    field? inlineBody "body" = some (arr [returnStatement 31 47
        (arrayLiteral 38 47 [objectLiteral 40 1])]) ∧
      findReturnedData inlineBody "lib/routes/account.js" = .ok (arr [objectLiteral 40 1]) ∧
      [objectLiteral 40 1].length = 1 :=
  ⟨rfl,
    findReturnedData_inline_array inlineBody
      (returnStatement 31 47 (arrayLiteral 38 47 [objectLiteral 40 1]))
      (arrayLiteral 38 47 [objectLiteral 40 1]) (num 1)
      [returnStatement 31 47 (arrayLiteral 38 47 [objectLiteral 40 1])]
      [objectLiteral 40 1] "lib/routes/account.js" rfl rfl (by decide) rfl rfl rfl rfl rfl,
    rfl⟩

/-- C15, the code at the failing input: for every function body that is not a
block, `findReturnedData` fails with `Expected type [ReturnStatement], found nothing`,
because `assertType` is applied to the variable `returnedData` before anything is
assigned to it; so for the file `module.exports = () => [ \x7bm:1\x7d ]`
`findExportedFunction` returns the array literal that is the body of the arrow
function, and the extraction then fails instead of returning its elements. -/
theorem findReturnedData_expression_body_fails :
    (∀ (functionNode type : Node) (filePath : String),
      get functionNode "type" = .ok type → strictEq type (str "BlockStatement") = false →
      findReturnedData functionNode filePath =
        .error (.exit (debugFriendlyMessage "Expected type [ReturnStatement], found nothing"
          filePath undefined))) ∧
    findExportedFunction arrowFile "lib/routes/account.js" =
      .ok (arrayLiteral 23 32 [objectLiteral 25 1]) ∧
    extract ⟨"lib/routes/account.js", arrowFile⟩ =
      .error (.exit
        "Error parsing \"lib/routes/account.js\":\nExpected type [ReturnStatement], found nothing") :=
  ⟨findReturnedData_not_block, rfl, rfl⟩

/-- C16, the code at the failing input: on a block whose only return statement
found has the argument `null` (a bare `return;`), `findReturnedData` ends with a
`TypeError`, thrown by `returnedData.type` before `assertType` is reached; so it
does for the body `\x7b return; \x7d`. -/
theorem findReturnedData_bare_return_throws :
    (∀ (functionNode body ret : Node) (filePath : String),
      field? functionNode "type" = some (str "BlockStatement") →
      field? functionNode "body" = some body →
      returned body = [ret] → field? ret "argument" = some null →
      findReturnedData functionNode filePath = .error .typeError) ∧
    findReturnedData bareReturnBody "lib/routes/account.js" = .error .typeError := by
  refine ⟨?_, rfl⟩
  intro functionNode body ret filePath htype hbody hret harg
  rw [findReturnedData_block functionNode body filePath htype hbody, hret]
  simp only [List.length_singleton, ne_eq, not_true_eq_false, if_false, List.getD_cons_zero,
    field?_get _ _ _ harg]
  unfold resolveReturnedData
  simp [bind, Except.bind, get]

/-- C18: with `options.recursive` set the flag `options.array` has no effect on
the result of `find`. -/
theorem find_recursive_array_flag (node criteria : Node) :
    find node criteria (some { recursive := true }) =
      find node criteria (some { recursive := true, array := true }) := by
  induction node using induct_node with
  | hprim n hn =>
    rw [find_some, find_some]
    have h1 : isArray n = false := by cases n <;> simp_all [isArray, isObject]
    simp [descends, hn, h1]
  | hstep n hn ih =>
    rw [find_some, find_some]
    have h1 : descends n { recursive := true } = true := by simp [descends, hn]
    have h2 : descends n { recursive := true, array := true } = true := by simp [descends, hn]
    rw [h1, h2, List.flatMap_congr ih]

end ApiDocs

/-! ## The declarator of a returned identifier -/

set_option maxRecDepth 8192

namespace ApiDocs

open Node

/-- A declarator of `name` satisfies `match` against the declarator criteria. -/
theorem isDeclarator_match (name : String) (node : Node)
    (h : isDeclarator name node = true) :
    matchNode node (declaratorCriteria (str name)) = true := by
  simp only [isDeclarator, Bool.and_eq_true] at h
  obtain ⟨h1, h2⟩ := h
  have h1 := isString_eq _ _ h1
  unfold declaratorCriteria
  rw [matchNode_obj_iff]
  refine ⟨field?_isObject _ _ _ h1, ?_⟩
  simp only [List.forall_mem_cons, List.not_mem_nil, false_imp_iff, implies_true, and_true]
  refine ⟨field?_str_match _ _ _ h1, ?_⟩
  cases hi : field? node "id" with
  | none => simp [hi] at h2
  | some id =>
    simp only [hi] at h2
    exact ⟨id, field?_mem _ _ _ hi, isIdentifier_match _ _ h2⟩

/-- On a block with exactly one return statement found, whose argument is the
identifier `name`, `findReturnedData` continues with the search for declarators. -/
theorem findReturnedData_identifier (functionNode ret ident : Node) (stmts : List Node)
    (name filePath : String)
    (htype : field? functionNode "type" = some (str "BlockStatement"))
    (hbody : field? functionNode "body" = some (arr stmts))
    (hrec : ∀ s ∈ stmts, isRecord s = true)
    (hone : stmts.filter (fun s => matchNode s returnCriteria) = [ret])
    (harg : field? ret "argument" = some ident)
    (hident : isIdentifier ident name = true) :
    findReturnedData functionNode filePath =
      if (routeDefinitions functionNode (str name)).length ≠ 1 then
        .error (.exit (debugFriendlyMessage
          ("Expected 1 set of route definitions, found "
            ++ toString (routeDefinitions functionNode (str name)).length)
          filePath undefined))
      else
        match get ((routeDefinitions functionNode (str name)).getD 0 undefined) "init" with
        | .error err => .error err
        | .ok init =>
          match assertType init ROUTE_DEFINITION_TYPES filePath with
          | .error err => .error err
          | .ok _ => get init "elements" := by
  have hret : returned (arr stmts) = [ret] := by rw [returned_eq_filter stmts hrec, hone]
  simp only [isIdentifier, Bool.and_eq_true] at hident
  have h1 := isString_eq _ _ hident.1
  have h2 := isString_eq _ _ hident.2
  rw [findReturnedData_block functionNode (arr stmts) filePath htype hbody, hret]
  simp only [List.length_singleton, ne_eq, not_true_eq_false, if_false, List.getD_cons_zero,
    field?_get _ _ _ harg]
  exact resolveReturnedData_identifier functionNode ident (str name) filePath h1
    (field?_get _ _ _ h2)

/-- C12 as stated fails: in the body
`\x7b var routes = [ \x7bm:1\x7d, \x7bm:2\x7d ]; var alias = routes; return routes; \x7d`
exactly one declarator declares `routes`, with an array literal, and
`findReturnedData` fails with `Expected 1 set of route definitions, found 2`: the
declarator `alias = routes` satisfies `match` too, because its field `init`
matches the criteria field `id`. -/
theorem findReturnedData_other_statements_counterexample :
    ¬ (∀ (functionNode ret ident decl init line elements : Node) (stmts : List Node)
        (p : List Nat) (name filePath : String),
        field? functionNode "type" = some (str "BlockStatement") →
        field? functionNode "body" = some (arr stmts) →
        (∀ s ∈ stmts, isRecord s = true) →
        stmts.filter (fun s => matchNode s returnCriteria) = [ret] →
        isReturnStatement ret = true →
        field? ret "argument" = some ident → isIdentifier ident name = true →
        declarators name functionNode = [(p, decl)] →
        field? decl "init" = some init →
        field? init "type" = some (str "ArrayExpression") →
        lineOf init = some line → field? init "elements" = some elements →
        findReturnedData functionNode filePath = .ok elements) := by
  intro h
  have h1 := h aliasBody (returnStatement 82 96 (identifier "routes" 89 95 1 89 95))
    (identifier "routes" 89 95 1 89 95) routesDeclarator
    (arrayLiteral 44 60 [objectLiteral 46 1, objectLiteral 53 2]) (num 1)
    (arr [objectLiteral 46 1, objectLiteral 53 2])
    [declaration 31 61 routesDeclarator,
      declaration 62 81 (declarator 66 80 "alias" (identifier "routes" 74 80 1 74 80)),
      returnStatement 82 96 (identifier "routes" 89 95 1 89 95)]
    [4, 0, 4, 0] "routes" "lib/routes/account.js"
    rfl rfl (by decide) rfl rfl rfl rfl rfl rfl rfl rfl rfl
  have h2 : findReturnedData aliasBody "lib/routes/account.js" =
      .error (.exit
        "Error parsing \"lib/routes/account.js\":\nExpected 1 set of route definitions, found 2") :=
    rfl
  rw [h2] at h1
  cases h1

/-- C12, amended: if a block has exactly one return statement found among its
statements, the argument of that statement is the identifier `name`, exactly
one declarator in the block declares `name`, its initializer is an array
literal with location data, and every node of the block that satisfies `match`
against the declarator criteria is that declarator or lies inside it, then
`findReturnedData` returns the `elements` of that array literal. -/
theorem findReturnedData_declared_array (functionNode ret ident decl init line elements : Node)
    (stmts : List Node) (p : List Nat) (name filePath : String)
    (htype : field? functionNode "type" = some (str "BlockStatement"))
    (hbody : field? functionNode "body" = some (arr stmts))
    (hrec : ∀ s ∈ stmts, isRecord s = true)
    (hone : stmts.filter (fun s => matchNode s returnCriteria) = [ret])
    (harg : field? ret "argument" = some ident) (hident : isIdentifier ident name = true)
    (hdecl : declarators name functionNode = [(p, decl)])
    (hinit : field? decl "init" = some init)
    (harray : field? init "type" = some (str "ArrayExpression"))
    (hline : lineOf init = some line) (helements : field? init "elements" = some elements)
    (hall : ∀ q m, subtreeAt functionNode q = some m →
      matchNode m (declaratorCriteria (str name)) = true → p <+: q) :
    findReturnedData functionNode filePath = .ok elements := by
  have hmem : (p, decl) ∈ declarators name functionNode := by rw [hdecl]; simp
  unfold declarators at hmem
  rw [List.mem_filter] at hmem
  have hp : subtreeAt functionNode p = some decl :=
    (mem_preorderAt functionNode (p, decl)).1 hmem.1
  have hfind : routeDefinitions functionNode (str name) = [decl] :=
    find_eq_singleton functionNode _ decl { recursive := true } p rfl hp
      (isDeclarator_match name decl hmem.2) hall
  rw [findReturnedData_identifier functionNode ret ident stmts name filePath htype hbody hrec
    hone harg hident, hfind]
  simp only [List.length_singleton, ne_eq, not_true_eq_false, if_false, List.getD_cons_zero,
    field?_get _ _ _ hinit,
    assertType_ok init line ROUTE_DEFINITION_TYPES "ArrayExpression" filePath harray
      (by decide) hline]
  exact field?_get _ _ _ helements

theorem findReturnedData_declared_array_witness :
    declarators "routes" routesBody = [([4, 0, 4, 0], routesDeclarator)] ∧
      findReturnedData routesBody "lib/routes/account.js" =
        .ok (arr [objectLiteral 46 1, objectLiteral 53 2]) :=
  ⟨rfl,
    findReturnedData_declared_array routesBody
      (returnStatement 62 76 (identifier "routes" 69 75 1 69 75))
      (identifier "routes" 69 75 1 69 75) routesDeclarator
      (arrayLiteral 44 60 [objectLiteral 46 1, objectLiteral 53 2]) (num 1)
      (arr [objectLiteral 46 1, objectLiteral 53 2])
      [declaration 31 61 routesDeclarator,
        returnStatement 62 76 (identifier "routes" 69 75 1 69 75)]
      [4, 0, 4, 0] "routes" "lib/routes/account.js"
      rfl rfl (by decide) rfl rfl rfl rfl rfl rfl rfl rfl
      (by
        intro q m hq hm
        have key : (preorderAt routesBody).all
            (fun r => ! matchNode r.2 (declaratorCriteria (str "routes"))
              || [4, 0, 4, 0].isPrefixOf r.1) = true := by
          decide
        have h1 := List.all_eq_true.1 key (q, m) ((mem_preorderAt routesBody (q, m)).2 hq)
        simp only [hm, Bool.not_true, Bool.false_or] at h1
        exact List.isPrefixOf_iff_prefix.1 h1)⟩

/-- C13, amended: on a block with exactly one return statement found, whose
argument is the identifier `name`, with `N` the number of nodes that the
recursive search with the declarator criteria returns in the block (the
outermost nodes that satisfy `match`, which pairs a criteria field with node
fields of any name), `findReturnedData` fails with
`Expected 1 set of route definitions, found N` exactly when `N` is not 1; a block in
which no node satisfies `match` against the declarator criteria fails with
`found 0`. -/
theorem findReturnedData_declarator_count (functionNode ret ident : Node)
    (stmts : List Node) (name filePath : String)
    (htype : field? functionNode "type" = some (str "BlockStatement"))
    (hbody : field? functionNode "body" = some (arr stmts))
    (hrec : ∀ s ∈ stmts, isRecord s = true)
    (hone : stmts.filter (fun s => matchNode s returnCriteria) = [ret])
    (harg : field? ret "argument" = some ident) (hident : isIdentifier ident name = true) :
    (findReturnedData functionNode filePath =
        .error (.exit (debugFriendlyMessage
          ("Expected 1 set of route definitions, found "
            ++ toString (routeDefinitions functionNode (str name)).length)
          filePath undefined)) ↔
      (routeDefinitions functionNode (str name)).length ≠ 1) ∧
    ((∀ p m, subtreeAt functionNode p = some m →
        matchNode m (declaratorCriteria (str name)) = false) →
      findReturnedData functionNode filePath =
        .error (.exit (debugFriendlyMessage "Expected 1 set of route definitions, found 0"
          filePath undefined))) := by
  have hstep := findReturnedData_identifier functionNode ret ident stmts name filePath htype
    hbody hrec hone harg hident
  have hfail : (routeDefinitions functionNode (str name)).length ≠ 1 →
      findReturnedData functionNode filePath =
        .error (.exit (debugFriendlyMessage
          ("Expected 1 set of route definitions, found "
            ++ toString (routeDefinitions functionNode (str name)).length)
          filePath undefined)) := by
    intro hlen
    rw [hstep]
    simp [hlen]
  refine ⟨⟨?_, hfail⟩, ?_⟩
  · intro h hlen
    rw [hstep] at h
    simp only [hlen, ne_eq, not_true_eq_false, if_false] at h
    generalize (routeDefinitions functionNode (str name)).getD 0 undefined = first at h
    rcases get_cases first "init" with h1 | ⟨init, h1⟩
    · rw [h1] at h
      cases h
    · rw [h1] at h
      simp only at h
      rcases assertType_cases init ROUTE_DEFINITION_TYPES filePath with
        h3 | h3 | ⟨m, line, h3⟩
      · rw [h3] at h
        simp only at h
        rcases get_cases init "elements" with h4 | ⟨w, h4⟩
        · rw [h4] at h
          cases h
        · rw [h4] at h
          cases h
      · rw [h3] at h
        cases h
      · rw [h3] at h
        simp only at h
        injection h with h
        injection h with h
        rw [routes_message_eq] at h
        exact expected_one_ne_type _ _ _ _ h.symm
  · intro hall
    have h0 : routeDefinitions functionNode (str name) = [] :=
      find_eq_nil functionNode _ _ hall
    have := hfail (by rw [h0]; decide)
    rw [h0] at this
    exact this

theorem findReturnedData_declarator_count_witness :
    field? aliasBody "type" = some (str "BlockStatement") ∧
      (routeDefinitions aliasBody (str "routes")).length = 2 ∧
      (findReturnedData aliasBody "lib/routes/account.js" =
          .error (.exit (debugFriendlyMessage
            ("Expected 1 set of route definitions, found "
              ++ toString (routeDefinitions aliasBody (str "routes")).length)
            "lib/routes/account.js" undefined)) ↔
        (routeDefinitions aliasBody (str "routes")).length ≠ 1) :=
  ⟨rfl, by decide,
    (findReturnedData_declarator_count aliasBody
      (returnStatement 82 96 (identifier "routes" 89 95 1 89 95))
      (identifier "routes" 89 95 1 89 95)
      [declaration 31 61 routesDeclarator,
        declaration 62 81 (declarator 66 80 "alias" (identifier "routes" 74 80 1 74 80)),
        returnStatement 82 96 (identifier "routes" 89 95 1 89 95)]
      "routes" "lib/routes/account.js" rfl rfl (by decide) rfl rfl rfl).1⟩

end ApiDocs

/-! ## The output -/

namespace ApiDocs

open Node

theorem foldl_append_join (l : List String) (acc : String) :
    l.foldl (fun r s => r ++ s) acc = acc ++ String.join l := by
  induction l generalizing acc with
  | nil => simp [String.join]
  | cons x rest ih =>
    have h1 : String.join (x :: rest) = x ++ String.join rest := by
      unfold String.join
      rw [List.foldl_cons, ih, ih]
      simp
    rw [List.foldl_cons, ih, h1, String.append_assoc]

theorem foldl_stringify (stringify : Node → String) (elems : List Node) (document : String) :
    elems.foldl (fun document route => document ++ stringify route) document =
      document ++ String.join (elems.map stringify) := by
  rw [← foldl_append_join, List.foldl_map]

theorem join_cons (x : String) (rest : List String) :
    String.join (x :: rest) = x ++ String.join rest := by
  unfold String.join
  rw [List.foldl_cons, foldl_append_join, foldl_append_join]
  simp

/-- The callback of the `reduce` in terms of `extract`. -/
theorem appendRoutes_eq (stringify : Node → String) (document : String) (file : File) :
    appendRoutes stringify document file =
      match extract file with
      | .error err => .error err
      | .ok (arr elems) => .ok (document ++ String.join (elems.map stringify))
      | .ok _ => .error .typeError := by
  unfold appendRoutes extract
  simp only [bind, Except.bind, pure, Except.pure]
  cases findExportedFunction file.ast file.path with
  | error e => rfl
  | ok f =>
    dsimp only
    cases findReturnedData f file.path with
    | error e => rfl
    | ok routes =>
      cases routes <;> first | rfl | (dsimp only; rw [foldl_stringify])

theorem foldlM_appendRoutes_ok (stringify : Node → String) (files : List File)
    (routes : List (List Node))
    (h : List.Forall₂ (fun file rs => extract file = .ok (arr rs)) files routes)
    (document : String) :
    files.foldlM (appendRoutes stringify) document =
      .ok (document ++ String.join (routes.map (fun rs => String.join (rs.map stringify)))) := by
  induction h generalizing document with
  | nil => simp [String.join, pure, Except.pure]
  | cons hfile _ ih =>
    rw [List.foldlM_cons, appendRoutes_eq, hfile]
    simp only [bind, Except.bind]
    rw [ih, List.map_cons, join_cons, String.append_assoc]

theorem foldlM_appendRoutes_error (stringify : Node → String) (files : List File)
    (h : ∃ file ∈ files, ∃ err, extract file = .error err) (document : String) :
    ∃ err, files.foldlM (appendRoutes stringify) document = .error err := by
  induction files generalizing document with
  | nil =>
    obtain ⟨file, hmem, _⟩ := h
    cases hmem
  | cons file rest ih =>
    rw [List.foldlM_cons, appendRoutes_eq]
    cases hx : extract file with
    | error e => exact ⟨e, rfl⟩
    | ok routes =>
      have hrest : ∃ f ∈ rest, ∃ err, extract f = .error err := by
        obtain ⟨f, hmem, err, hf⟩ := h
        rcases List.mem_cons.1 hmem with rfl | hmem
        · rw [hx] at hf
          cases hf
        · exact ⟨f, hmem, err, hf⟩
      cases routes with
      | arr elems => exact ih hrest _
      | _ => exact ⟨.typeError, rfl⟩

/-- C17: when the extraction succeeds for every file, `generateOutput` returns the
concatenation, in the order of the file list, of the serialisations of the
route elements of each file, in the order of its array literal; when the
extraction fails for a file and has succeeded for the files before it, the run
fails with the failure of that file; and whenever the extraction fails for some
file, the run fails: no document is returned. -/
theorem generateOutput_in_order (stringify : Node → String) (docs : Node)
    (files : List File) :
    (∀ routes : List (List Node),
      List.Forall₂ (fun file rs => extract file = .ok (arr rs)) files routes →
      generateOutput stringify docs files =
        .ok (String.join (routes.map (fun rs => String.join (rs.map stringify))))) ∧
    (∀ (before after : List File) (file : File) (routes : List (List Node)) (err : Failure),
      files = before ++ file :: after →
      List.Forall₂ (fun file rs => extract file = .ok (arr rs)) before routes →
      extract file = .error err →
      generateOutput stringify docs files = .error err) ∧
    ((∃ file ∈ files, ∃ err, extract file = .error err) →
      ∃ err, generateOutput stringify docs files = .error err) := by
  refine ⟨?_, ?_, ?_⟩
  · intro routes h
    unfold generateOutput
    rw [foldlM_appendRoutes_ok stringify files routes h]
    simp
  · intro before after file routes err hfiles hbefore hfile
    unfold generateOutput
    rw [hfiles, List.foldlM_append, foldlM_appendRoutes_ok stringify before routes hbefore]
    simp only [bind, Except.bind]
    rw [List.foldlM_cons, appendRoutes_eq, hfile]
    rfl
  · intro h
    exact foldlM_appendRoutes_error stringify files h ""

end ApiDocs

/-! ## The bounce gate -/

namespace Senders

theorem hit_advance (b : Bounce) (now : Int) (seen : List Bounce) (r : RuleSet) :
    hit b now (advance now seen r) = hit b now r := rfl

theorem countHits_advance (now : Int) (seen l : List Bounce) (r : RuleSet) :
    countHits (advance now seen r) now l = countHits r now l := rfl

theorem countHits_append (r : RuleSet) (now : Int) (l1 l2 : List Bounce) :
    countHits r now (l1 ++ l2) = countHits r now l1 + countHits r now l2 := by
  simp [countHits, List.filter_append]

theorem countHits_singleton (r : RuleSet) (now : Int) (b : Bounce) :
    countHits r now [b] = if hit b now r then 1 else 0 := by
  by_cases h : hit b now r = true <;> simp [countHits, List.filter_cons, h]

theorem countHits_cons (r : RuleSet) (now : Int) (b : Bounce) (l : List Bounce) :
    countHits r now (b :: l) = (if hit b now r then 1 else 0) + countHits r now l := by
  rw [← countHits_singleton, ← countHits_append]
  rfl

theorem advance_nil (now : Int) (r : RuleSet) : advance now [] r = r := rfl

theorem bump_advance (b : Bounce) (now : Int) (seen : List Bounce) (r : RuleSet) :
    bump b now (advance now seen r) = advance now (seen ++ [b]) r := by
  unfold bump
  rw [hit_advance]
  by_cases h : hit b now r = true
  · simp [h, advance, countHits_append, countHits_singleton, Nat.add_assoc]
  · simp [h, advance, countHits_append, countHits_singleton]

/-- One call of `checkBounce` on rules of pairwise different types: every rule
that counts the bounce is incremented, and the error is that of the rule whose
incremented count exceeds its limit. -/
theorem checkBounce_eq (b : Bounce) (now : Int) (rules : List RuleSet)
    (hnodup : (rules.map (fun r => r.type)).Nodup) :
    checkBounce b rules now =
      (rules.map (bump b now),
        (rules.find? (fun r => hit b now r && decide (r.count + 1 > r.max))).map
          (fun r => r.error)) := by
  induction rules with
  | nil => rfl
  | cons r rest ih =>
    rw [List.map_cons, List.nodup_cons] at hnodup
    by_cases ht : b.bounceType = r.type
    · have hrest : ∀ x ∈ rest, hit b now x = false := by
        intro x hx
        cases hh : hit b now x
        · rfl
        · exfalso
          apply hnodup.1
          simp only [hit, Bool.and_eq_true, beq_iff_eq] at hh
          exact List.mem_map.2 ⟨x, hx, by rw [← hh.1, ht]⟩
      have hmap : rest.map (bump b now) = rest := by
        conv_rhs => rw [← List.map_id rest]
        apply List.map_congr_left
        intro x hx
        simp [bump, hrest x hx]
      have hfind : rest.find? (fun r => hit b now r && decide (r.count + 1 > r.max)) = none := by
        rw [List.find?_eq_none]
        intro x hx
        simp [hrest x hx]
      by_cases hw : within b.createdAt now r.duration = true
      · have hh : hit b now r = true := by simp [hit, ht, hw]
        by_cases hc : r.count + 1 > r.max
        · simp [checkBounce, ht, hw, hc, bump, hh, hmap, List.find?_cons]
        · simp [checkBounce, ht, hw, hc, bump, hh, hmap, List.find?_cons, hfind]
      · have hh : hit b now r = false := by simp [hit, hw]
        simp [checkBounce, ht, hw, bump, hh, hmap, List.find?_cons, hfind]
    · have hh : hit b now r = false := by simp [hit, ht]
      simp [checkBounce, ht, bump, hh, List.find?_cons, ih hnodup.2]

theorem advance_types (now : Int) (seen : List Bounce) (rules : List RuleSet) :
    (rules.map (advance now seen)).map (fun r => r.type) = rules.map (fun r => r.type) := by
  rw [List.map_map]
  rfl

theorem forEachBounce_step (b : Bounce) (rest : List Bounce) (rules : List RuleSet)
    (now : Int) :
    forEachBounce (b :: rest) rules now =
      match checkBounce b rules now with
      | (rules, some err) => (rules, .error err)
      | (rules, none) => forEachBounce rest rules now := rfl

/-- One step of the loop over the bounces, from the state reached after `seen`. -/
theorem forEachBounce_cons (b : Bounce) (rest seen : List Bounce) (now : Int)
    (rules : List RuleSet) (hnodup : (rules.map (fun r => r.type)).Nodup) :
    forEachBounce (b :: rest) (rules.map (advance now seen)) now =
      match rules.find? (fun r =>
          hit b now r && decide (r.count + countHits r now seen + 1 > r.max)) with
      | some r => (rules.map (advance now (seen ++ [b])), .error r.error)
      | none => forEachBounce rest (rules.map (advance now (seen ++ [b]))) now := by
  have hstep := checkBounce_eq b now (rules.map (advance now seen))
    (by rw [advance_types]; exact hnodup)
  rw [List.map_map, List.find?_map] at hstep
  have hfun : bump b now ∘ advance now seen = advance now (seen ++ [b]) := by
    funext r
    exact bump_advance b now seen r
  rw [hfun] at hstep
  have hp : ((fun r => hit b now r && decide (r.count + 1 > r.max)) ∘ advance now seen) =
      (fun r => hit b now r && decide (r.count + countHits r now seen + 1 > r.max)) := by
    funext r
    rfl
  rw [hp] at hstep
  rw [forEachBounce_step, hstep]
  cases rules.find? (fun r =>
    hit b now r && decide (r.count + countHits r now seen + 1 > r.max)) <;> rfl

theorem hit_type (b : Bounce) (now : Int) (r : RuleSet) (h : hit b now r = true) :
    b.bounceType = r.type := by
  simp only [hit, Bool.and_eq_true, beq_iff_eq] at h
  exact h.1

/-- While no count has exceeded its limit, the counts after one more bounce, when
no rule trips on it, still do not exceed their limits. -/
theorem invariant_step (rules : List RuleSet) (now : Int) (seen : List Bounce) (b : Bounce)
    (inv : ∀ r ∈ rules, r.count + countHits r now seen ≤ r.max)
    (hnone : ∀ r ∈ rules,
      ¬ (hit b now r && decide (r.count + countHits r now seen + 1 > r.max)) = true) :
    ∀ r ∈ rules, r.count + countHits r now (seen ++ [b]) ≤ r.max := by
  intro r hr
  have h1 := inv r hr
  have h2 := hnone r hr
  rw [countHits_append, countHits_singleton]
  by_cases hh : hit b now r = true
  · simp only [hh, Bool.true_and, decide_eq_true_eq, not_lt] at h2
    simp only [hh, if_true]
    omega
  · simp only [hh, if_false, Bool.false_eq_true]
    omega

/-- The state after the loop is the state reached after some list of bounces. -/
theorem forEachBounce_state (rules : List RuleSet) (now : Int)
    (hnodup : (rules.map (fun r => r.type)).Nodup) (rest : List Bounce) :
    ∀ seen, ∃ seen',
      (forEachBounce rest (rules.map (advance now seen)) now).1 =
        rules.map (advance now seen') := by
  induction rest with
  | nil => intro seen; exact ⟨seen, rfl⟩
  | cons b rest ih =>
    intro seen
    rw [forEachBounce_cons b rest seen now rules hnodup]
    cases rules.find? (fun r =>
      hit b now r && decide (r.count + countHits r now seen + 1 > r.max)) with
    | some r0 => exact ⟨seen ++ [b], rfl⟩
    | none => exact ih (seen ++ [b])

/-- The loop ends with an error exactly when some rule counts more bounces than
its limit. -/
theorem forEachBounce_error_iff (rules : List RuleSet) (now : Int)
    (hnodup : (rules.map (fun r => r.type)).Nodup) (rest : List Bounce) :
    ∀ seen, (∀ r ∈ rules, r.count + countHits r now seen ≤ r.max) →
      ((∃ e, (forEachBounce rest (rules.map (advance now seen)) now).2 = .error e) ↔
        ∃ r ∈ rules, r.count + countHits r now (seen ++ rest) > r.max) := by
  induction rest with
  | nil =>
    intro seen inv
    constructor
    · rintro ⟨e, he⟩
      cases he
    · rintro ⟨r, hr, h⟩
      have := inv r hr
      rw [List.append_nil] at h
      omega
  | cons b rest ih =>
    intro seen inv
    rw [forEachBounce_cons b rest seen now rules hnodup]
    cases hf : rules.find? (fun r =>
      hit b now r && decide (r.count + countHits r now seen + 1 > r.max)) with
    | some r0 =>
      have hmem := List.mem_of_find?_eq_some hf
      have hq := List.find?_some hf
      simp only [Bool.and_eq_true, decide_eq_true_eq] at hq
      constructor
      · intro _
        refine ⟨r0, hmem, ?_⟩
        rw [countHits_append, countHits_cons]
        simp only [hq.1, if_true]
        omega
      · intro _
        exact ⟨_, rfl⟩
    | none =>
      have hnone := List.find?_eq_none.1 hf
      have inv' := invariant_step rules now seen b inv hnone
      simp only
      rw [ih (seen ++ [b]) inv']
      simp [List.append_assoc]

/-- The error of the loop is the error of the rule of the first bounce whose
running count exceeds the limit of its rule. -/
theorem forEachBounce_first_error (rules : List RuleSet) (now : Int)
    (hnodup : (rules.map (fun r => r.type)).Nodup) (rest : List Bounce) :
    ∀ seen, (∀ r ∈ rules, r.count + countHits r now seen ≤ r.max) → ∀ e,
      ((forEachBounce rest (rules.map (advance now seen)) now).2 = .error e ↔
        ∃ k b r, rest[k]? = some b ∧ r ∈ rules ∧ hit b now r = true ∧
          r.count + countHits r now (seen ++ rest.take (k + 1)) > r.max ∧ e = r.error ∧
          ∀ j b' r', j < k → rest[j]? = some b' → r' ∈ rules → hit b' now r' = true →
            r'.count + countHits r' now (seen ++ rest.take (j + 1)) ≤ r'.max) := by
  induction rest with
  | nil =>
    intro seen _ e
    constructor
    · intro h
      cases h
    · rintro ⟨k, b, r, hk, _⟩
      simp at hk
  | cons b rest ih =>
    intro seen inv e
    rw [forEachBounce_cons b rest seen now rules hnodup]
    cases hf : rules.find? (fun r =>
      hit b now r && decide (r.count + countHits r now seen + 1 > r.max)) with
    | some r0 =>
      have hmem := List.mem_of_find?_eq_some hf
      have hq := List.find?_some hf
      simp only [Bool.and_eq_true, decide_eq_true_eq] at hq
      have hone : countHits r0 now (seen ++ List.take 1 (b :: rest)) =
          countHits r0 now seen + 1 := by
        rw [countHits_append]
        simp [countHits_singleton, hq.1]
      constructor
      · intro h
        have he : e = r0.error := by
          injection h with h
          exact h.symm
        refine ⟨0, b, r0, List.getElem?_cons_zero, hmem, hq.1, ?_, he, ?_⟩
        · rw [hone]
          omega
        · intro j b' r' hj
          omega
      · rintro ⟨k, b', r, hk, hr, hh, hgt, he, hprev⟩
        cases k with
        | zero =>
          simp only [List.getElem?_cons_zero, Option.some.injEq] at hk
          subst hk
          have hty : r.type = r0.type := by
            rw [← hit_type _ _ _ hh, ← hit_type _ _ _ hq.1]
          have hrr : r = r0 := List.inj_on_of_nodup_map hnodup hr hmem hty
          rw [he, hrr]
        | succ k =>
          have := hprev 0 b r0 (Nat.succ_pos k) List.getElem?_cons_zero hmem hq.1
          rw [hone] at this
          omega
    | none =>
      have hnone := List.find?_eq_none.1 hf
      have inv' := invariant_step rules now seen b inv hnone
      have hshift : ∀ (n : Nat) (r : RuleSet),
          countHits r now (seen ++ List.take (n + 1 + 1) (b :: rest)) =
            countHits r now (seen ++ [b] ++ List.take (n + 1) rest) := by
        intro n r
        simp [List.append_assoc]
      have hfirst : ∀ r : RuleSet,
          countHits r now (seen ++ List.take (0 + 1) (b :: rest)) =
            countHits r now (seen ++ [b]) := by
        intro r
        simp
      simp only
      rw [ih (seen ++ [b]) inv' e]
      constructor
      · rintro ⟨k, b', r, hk, hr, hh, hgt, he, hprev⟩
        refine ⟨k + 1, b', r, by simpa using hk, hr, hh, by rw [hshift]; exact hgt, he, ?_⟩
        intro j b'' r'' hjk hj hr'' hh''
        cases j with
        | zero =>
          rw [hfirst]
          exact inv' r'' hr''
        | succ j =>
          rw [hshift]
          exact hprev j b'' r'' (by omega) (by simpa using hj) hr'' hh''
      · rintro ⟨k, b', r, hk, hr, hh, hgt, he, hprev⟩
        cases k with
        | zero =>
          rw [hfirst] at hgt
          have := inv' r hr
          omega
        | succ k =>
          refine ⟨k, b', r, by simpa using hk, hr, hh, by rw [← hshift]; exact hgt, he, ?_⟩
          intro j b'' r'' hjk hj hr'' hh''
          rw [← hshift]
          exact hprev (j + 1) b'' r'' (by omega) (by simpa using hj) hr'' hh''

theorem bounceRules_nodup (config : Option BounceConfig) :
    ((bounceRules config).map (fun r => r.type)).Nodup := by
  have : (bounceRules config).map (fun r => r.type) = [1, 3, 2] := rfl
  rw [this]
  decide

theorem bounceRules_count (config : Option BounceConfig) :
    ∀ r ∈ bounceRules config, r.count = 0 := by
  intro r hr
  simp only [bounceRules, List.mem_cons, List.mem_singleton, List.not_mem_nil, or_false] at hr
  rcases hr with rfl | rfl | rfl <;> rfl

theorem map_advance_nil (now : Int) (rules : List RuleSet) :
    rules.map (advance now []) = rules := by
  conv_rhs => rw [← List.map_id rules]
  apply List.map_congr_left
  intro r _
  rfl

theorem resetCounts_advance (config : Option BounceConfig) (now : Int) (seen : List Bounce) :
    resetCounts ((bounceRules config).map (advance now seen)) = bounceRules config := rfl

/-- C19: for rules left behind by earlier calls (any counts), the bounce gate
rejects a send exactly when some rule counts more bounces of its type with
`createdAt > now - duration` than its `max`; the error is that of the rule of the
first bounce, in list order, whose running count exceeds the `max` of its rule;
the outcome is the one obtained from the rules with all counts 0, and the rules
left behind by the call again differ from them in their counts only. -/
theorem bounceGatedMailer_gate (config : Option BounceConfig) (rules : List RuleSet)
    (bounces : List Bounce) (now : Int) (hrules : resetCounts rules = bounceRules config) :
    ((∃ e, (bounceGatedMailer rules bounces now).2 = .error e) ↔
      ∃ r ∈ bounceRules config, countHits r now bounces > r.max) ∧
    (∀ e, (bounceGatedMailer rules bounces now).2 = .error e ↔
      ∃ k b r, bounces[k]? = some b ∧ r ∈ bounceRules config ∧ hit b now r = true ∧
        countHits r now (bounces.take (k + 1)) > r.max ∧ e = r.error ∧
        ∀ j b' r', j < k → bounces[j]? = some b' → r' ∈ bounceRules config →
          hit b' now r' = true → countHits r' now (bounces.take (j + 1)) ≤ r'.max) ∧
    (bounceGatedMailer rules bounces now).2 =
      (forEachBounce bounces (bounceRules config) now).2 ∧
    resetCounts (bounceGatedMailer rules bounces now).1 = bounceRules config := by
  have hrun : bounceGatedMailer rules bounces now =
      forEachBounce bounces ((bounceRules config).map (advance now [])) now := by
    unfold bounceGatedMailer
    rw [hrules, map_advance_nil]
  have hzero := bounceRules_count config
  have inv : ∀ r ∈ bounceRules config, r.count + countHits r now [] ≤ r.max := by
    intro r hr
    rw [hzero r hr]
    simp [countHits]
  refine ⟨?_, ?_, ?_, ?_⟩
  · rw [hrun, forEachBounce_error_iff _ now (bounceRules_nodup config) bounces [] inv]
    constructor
    · rintro ⟨r, hr, h⟩
      rw [hzero r hr] at h
      exact ⟨r, hr, by simpa using h⟩
    · rintro ⟨r, hr, h⟩
      exact ⟨r, hr, by rw [hzero r hr]; simpa using h⟩
  · intro e
    rw [hrun, forEachBounce_first_error _ now (bounceRules_nodup config) bounces [] inv e]
    constructor
    · rintro ⟨k, b, r, hk, hr, hh, hgt, he, hprev⟩
      refine ⟨k, b, r, hk, hr, hh, ?_, he, ?_⟩
      · rw [hzero r hr] at hgt
        simpa using hgt
      · intro j b' r' hjk hj hr' hh'
        have := hprev j b' r' hjk hj hr' hh'
        rw [hzero r' hr'] at this
        simpa using this
    · rintro ⟨k, b, r, hk, hr, hh, hgt, he, hprev⟩
      refine ⟨k, b, r, hk, hr, hh, ?_, he, ?_⟩
      · rw [hzero r hr]
        simpa using hgt
      · intro j b' r' hjk hj hr' hh'
        have := hprev j b' r' hjk hj hr' hh'
        rw [hzero r' hr']
        simpa using this
  · rw [hrun, map_advance_nil]
  · rw [hrun]
    obtain ⟨seen', h⟩ := forEachBounce_state (bounceRules config) now
      (bounceRules_nodup config) bounces []
    rw [h]
    exact resetCounts_advance config now seen'

theorem bounceGatedMailer_gate_witness :
    resetCounts staleRules = bounceRules sampleConfig ∧
      (bounceGatedMailer staleRules sampleBounces 1000).2 =
        (forEachBounce sampleBounces (bounceRules sampleConfig) 1000).2 ∧
      (bounceGatedMailer staleRules sampleBounces 1000).2 = .error .emailBouncedHard :=
  ⟨by decide,
    (bounceGatedMailer_gate sampleConfig staleRules sampleBounces 1000 (by decide)).2.2.1,
    rfl⟩

end Senders

/-! ## Counting in the file and counting by the search -/

namespace ApiDocs

open Node

/-- C9 as stated fails: the file that consists of the statement
`x = module.exports` contains no assignment to `module.exports`, and
`findExportedFunction` does not fail with `Expected 1 export, found 0`: the
statement satisfies `match` (its field `right` matches the criteria field
`left`), the search returns it, and the failure is the type mismatch of its
right-hand side. -/
theorem findExportedFunction_cardinality_counterexample :
    ¬ (∀ (ast : Node) (filePath : String),
        (findExportedFunction ast filePath =
            .error (.exit (debugFriendlyMessage
              ("Expected 1 export, found " ++ toString (exportStatements ast).length)
              filePath undefined)) ↔
          (exportStatements ast).length ≠ 1)) := by
  intro h
  have h0 : (exportStatements aliasOnlyFile).length = 0 := by decide
  have h1 := (h aliasOnlyFile "lib/routes/account.js").2 (by rw [h0]; decide)
  rw [h0] at h1
  have h2 : findExportedFunction aliasOnlyFile "lib/routes/account.js" =
      .error (.exit ("Error parsing \"lib/routes/account.js\" at line 1:\n"
        ++ "Expected type [FunctionExpression,ArrowFunctionExpression], "
        ++ "found \"MemberExpression\" at column \"4\"")) := rfl
  have h3 : debugFriendlyMessage ("Expected 1 export, found " ++ toString 0)
      "lib/routes/account.js" undefined =
      "Error parsing \"lib/routes/account.js\":\nExpected 1 export, found 0" := rfl
  rw [h2, h3] at h1
  injection h1 with h1
  injection h1 with h1
  exact absurd h1 (by decide)

/-- C10 as stated fails: the file `module.exports = \x7b\x7d` followed by
`x = module.exports` contains exactly one assignment to `module.exports`, its
right-hand side is an `ObjectExpression`, and `findExportedFunction` fails with
`Expected 1 export, found 2`, not with the type mismatch: the second statement
satisfies `match` too. -/
theorem findExportedFunction_type_mismatch_counterexample :
    ¬ (∀ (ast stmt rhs column : Node) (p : List Nat) (t filePath : String) (line : Int),
        exportStatements ast = [(p, stmt)] → rightOf stmt = some rhs →
        field? rhs "type" = some (str t) → t ∉ FUNCTION_EXPRESSION_TYPES →
        lineOf rhs = some (num line) → line ≠ 0 → columnOf rhs = some column →
        filePath ≠ "" →
        findExportedFunction ast filePath =
          .error (.exit ("Error parsing \"" ++ filePath ++ "\" at line " ++ toString line
            ++ ":\n"
            ++ "Expected type [FunctionExpression,ArrowFunctionExpression], found \"" ++ t
            ++ "\" at column \"" ++ jsToString column ++ "\""))) := by
  intro h
  have h1 := h objectExportAliasFile sampleObjectExport
    (astNode "ObjectExpression" 17 19 1 17 1 19 [("properties", arr [])]) (num 17) [4, 0]
    "ObjectExpression" "lib/routes/account.js" 1
    rfl rfl rfl (by decide) rfl (by decide) rfl (by decide)
  have h2 : findExportedFunction objectExportAliasFile "lib/routes/account.js" =
      .error (.exit "Error parsing \"lib/routes/account.js\":\nExpected 1 export, found 2") :=
    rfl
  rw [h2] at h1
  injection h1 with h1
  injection h1 with h1
  exact absurd h1 (by decide)

/-- C10, amended: if a file tree contains exactly one expression statement whose
expression is an assignment with left-hand side `module.exports`, the
right-hand side of that statement is a node of a type `t` other than
`FunctionExpression` and `ArrowFunctionExpression`, starting at line `line` and
column `column`, and every node of the tree that satisfies `match` against the
export criteria is that statement or lies inside it, then `findExportedFunction`
fails, for a non-empty file path and a line number other than 0 (lines are
counted from 1), with the text `Error parsing "<file path>" at line <line>:`
followed by
`Expected type [FunctionExpression,ArrowFunctionExpression], found "<t>" at column "<column>"`;
it returns no body. -/
theorem findExportedFunction_not_function (ast stmt rhs column : Node) (p : List Nat)
    (t filePath : String) (line : Int)
    (hone : exportStatements ast = [(p, stmt)]) (hright : rightOf stmt = some rhs)
    (htype : field? rhs "type" = some (str t)) (ht : t ∉ FUNCTION_EXPRESSION_TYPES)
    (hline : lineOf rhs = some (num line)) (hl : line ≠ 0)
    (hcolumn : columnOf rhs = some column) (hfp : filePath ≠ "")
    (hall : ∀ q m, subtreeAt ast q = some m → matchNode m exportCriteria = true → p <+: q) :
    findExportedFunction ast filePath =
      .error (.exit ("Error parsing \"" ++ filePath ++ "\" at line " ++ toString line ++ ":\n"
        ++ "Expected type [FunctionExpression,ArrowFunctionExpression], found \"" ++ t
        ++ "\" at column \"" ++ jsToString column ++ "\"")) := by
  have hmem : (p, stmt) ∈ exportStatements ast := by rw [hone]; simp
  unfold exportStatements at hmem
  rw [List.mem_filter] at hmem
  have hp : subtreeAt ast p = some stmt := (mem_preorderAt ast (p, stmt)).1 hmem.1
  have hm : matchNode stmt exportCriteria = true := isExportStatement_match stmt hmem.2
  have hfind : exported ast = [stmt] :=
    find_eq_singleton ast exportCriteria stmt { recursive := true } p rfl hp hm hall
  exact findExportedFunction_type_mismatch ast stmt rhs column t filePath line hfind hright
    htype ht hline hl hcolumn hfp

theorem findExportedFunction_not_function_witness :
    exportStatements (program 19 1 19 [sampleObjectExport]) = [([4, 0], sampleObjectExport)] ∧
      "ObjectExpression" ∉ FUNCTION_EXPRESSION_TYPES ∧
      findExportedFunction (program 19 1 19 [sampleObjectExport]) "lib/routes/account.js" =
        .error (.exit ("Error parsing \"" ++ "lib/routes/account.js" ++ "\" at line "
          ++ toString (1 : Int) ++ ":\n"
          ++ "Expected type [FunctionExpression,ArrowFunctionExpression], found \""
          ++ "ObjectExpression" ++ "\" at column \"" ++ jsToString (num 17) ++ "\"")) :=
  ⟨rfl, by decide,
    findExportedFunction_not_function (program 19 1 19 [sampleObjectExport])
      sampleObjectExport (astNode "ObjectExpression" 17 19 1 17 1 19 [("properties", arr [])])
      (num 17) [4, 0] "ObjectExpression" "lib/routes/account.js" 1
      rfl rfl rfl (by decide) rfl (by decide) rfl (by decide)
      (by
        intro q m hq hm
        have key : (preorderAt (program 19 1 19 [sampleObjectExport])).all
            (fun r => ! matchNode r.2 exportCriteria || [4, 0].isPrefixOf r.1) = true := by
          decide
        have h1 := List.all_eq_true.1 key (q, m)
          ((mem_preorderAt (program 19 1 19 [sampleObjectExport]) (q, m)).2 hq)
        simp only [hm, Bool.not_true, Bool.false_or] at h1
        exact List.isPrefixOf_iff_prefix.1 h1)⟩

/-- C13 as stated fails: in the body `\x7b var a = routes; return routes \x7d` the single
returned expression is the identifier `routes` and no declarator declares
`routes`, yet `findReturnedData` does not fail with
`Expected 1 set of route definitions, found 0`: the declarator `a = routes`
satisfies `match` (its field `init` matches the criteria field `id`), the search
returns it, and the failure is the type mismatch of its initializer. -/
theorem findReturnedData_declarator_count_counterexample :
    ¬ (∀ (functionNode ret ident : Node) (stmts : List Node) (name filePath : String),
        field? functionNode "type" = some (str "BlockStatement") →
        field? functionNode "body" = some (arr stmts) →
        (∀ s ∈ stmts, isRecord s = true) →
        stmts.filter (fun s => matchNode s returnCriteria) = [ret] →
        isReturnStatement ret = true →
        field? ret "argument" = some ident → isIdentifier ident name = true →
        (findReturnedData functionNode filePath =
            .error (.exit (debugFriendlyMessage
              ("Expected 1 set of route definitions, found "
                ++ toString (declarators name functionNode).length) filePath undefined)) ↔
          (declarators name functionNode).length ≠ 1)) := by
  intro h
  have h0 : (declarators "routes" undeclaredBody).length = 0 := by decide
  have h1 := (h undeclaredBody (returnStatement 47 60 (identifier "routes" 54 60 1 54 60))
    (identifier "routes" 54 60 1 54 60) undeclaredStatements "routes" "lib/routes/account.js"
    rfl rfl (by decide) rfl rfl rfl rfl).2 (by rw [h0]; decide)
  rw [h0] at h1
  have h2 : findReturnedData undeclaredBody "lib/routes/account.js" =
      .error (.exit ("Error parsing \"lib/routes/account.js\" at line 1:\n"
        ++ "Expected type [ArrayExpression], found \"Identifier\" at column \"39\"")) := rfl
  have h3 : debugFriendlyMessage ("Expected 1 set of route definitions, found " ++ toString 0)
      "lib/routes/account.js" undefined =
      "Error parsing \"lib/routes/account.js\":\nExpected 1 set of route definitions, found 0" :=
    rfl
  rw [h2, h3] at h1
  injection h1 with h1
  injection h1 with h1
  exact absurd h1 (by decide)

end ApiDocs
